import Mathlib

/-!
The EZO-RGB command engine and the burst counter of waterteam-embedded.

A shallow embedding of `src/sensors/legacy/atlas_rgb.cpp` and
`src/sensors/sensor.cpp`.

* C `int` values are `Int`; the target is a 32-bit core, every constant of the
  source fits, and no arithmetic is done on them.
* `inputString` is the NUL-terminated content of the command array, a `String`.
  The array is declared in `atlas_rgb.h`, which is not among the sources, so its
  capacity is not part of the model.
* `sensorString` is the raw response array, a map from index to byte: the decode
  loop writes `sensorString[i++]` with no bounds check and so does the model.
* The function-local `static int i` of `receiveResponse` is the field `i`.
* `debug(...)` only prints and is left out.
-/

namespace WaterTeam

/-! ## Formatting done by `sprintf` -/

/-- The conversion `%d` of `sprintf`: the decimal digits, with a leading minus sign
for a negative value. -/
def fmtD (v : Int) : String :=
  match v with
  | Int.ofNat n => String.mk (Nat.toDigits 10 n)
  | Int.negSucc n => String.mk ('-' :: Nat.toDigits 10 (n + 1))

/-! ## Floating-point values

A finite `float` or `double` is a rational number, and the conversion of a `float`
to `double` is exact, so the comparisons of `gammaCorrection` are comparisons of
rationals. -/

/-- A value of type `float`. -/
inductive CFloat where
  | finite (q : ℚ)
  | posInf
  | negInf
  | nan

namespace CFloat

/-- The comparison `value < c` against a finite constant. -/
def lt (v : CFloat) (c : ℚ) : Bool :=
  match v with
  | finite q => decide (q < c)
  | posInf => false
  | negInf => true
  | nan => false

/-- The comparison `value <= c` against a finite constant. -/
def le (v : CFloat) (c : ℚ) : Bool :=
  match v with
  | finite q => decide (q ≤ c)
  | posInf => false
  | negInf => true
  | nan => false

/-- The comparison `value >= c` against a finite constant. -/
def ge (v : CFloat) (c : ℚ) : Bool :=
  match v with
  | finite q => decide (c ≤ q)
  | posInf => true
  | negInf => false
  | nan => false

end CFloat

/-- The quotient `a / b` rounded to the nearest integer, a tie to the even one. -/
def roundDiv (a b : Nat) : Nat :=
  let q := a / b
  let r := a % b
  if 2 * r < b then q else if b < 2 * r then q + 1 else if q % 2 = 0 then q else q + 1

/-- The number of binary digits of `n` (`fuel` at least that number). -/
def bitLen : Nat → Nat → Nat
  | 0, _ => 0
  | fuel + 1, n => if n = 0 then 0 else bitLen fuel (n / 2) + 1

/-- The exponent `e` with `2 ^ e ≤ n / d < 2 ^ (e + 1)`, for positive `n` and `d`. -/
def floorLog2 (n d : Nat) : Int :=
  let e : Int := (bitLen n n : Int) - (bitLen d d : Int)
  if 0 ≤ e then (if d * 2 ^ e.toNat ≤ n then e else e - 1)
  else (if d ≤ n * 2 ^ (-e).toNat then e else e - 1)

/-- Rounds the positive decimal literal `n / d` to the nearest value with `p`
significant binary digits whose last place is not below `2 ^ kmin` (round to
nearest, ties to even): the result is `m * 2 ^ k`, given as `(m, k)`. -/
def roundBinary (p : Nat) (kmin : Int) (n d : Nat) : Nat × Int :=
  let k0 : Int := floorLog2 n d - ((p : Int) - 1)
  let k : Int := if k0 < kmin then kmin else k0
  if 0 ≤ k then (roundDiv n (d * 2 ^ k.toNat), k) else (roundDiv (n * 2 ^ (-k).toNat) d, k)

/-- The number `m * 2 ^ k`. -/
def dyadic (x : Nat × Int) : ℚ := (x.1 : ℚ) * (2 : ℚ) ^ x.2

/-- The `float` written as the decimal literal `n / d` (binary32: 24 digits), for a
literal within the finite range. -/
def toFloat (n d : Nat) : ℚ := dyadic (roundBinary 24 (-149) n d)

/-- The `double` written as the decimal literal `n / d` (binary64: 53 digits), for a
literal within the finite range. -/
def toDouble (n d : Nat) : ℚ := dyadic (roundBinary 53 (-1074) n d)

/-- The conversion `%f` of `sprintf` for a finite value: six digits after the
point, the value rounded to them. -/
def fmtFixed6 (q : ℚ) : String :=
  let n := roundDiv (q.num.natAbs * 10 ^ 6) q.den
  let digits := String.mk (Nat.toDigits 10 (n / 10 ^ 6)) ++ "." ++
    String.mk ((Nat.toDigits 10 (10 ^ 6 + n % 10 ^ 6)).tail)
  if q < 0 then "-" ++ digits else digits

/-- The conversion `%f` of `sprintf`. -/
def fmtF : CFloat → String
  | CFloat.finite q => fmtFixed6 q
  | CFloat.posInf => "inf"
  | CFloat.negInf => "-inf"
  | CFloat.nan => "nan"

/-! ## The bus transport (`TwoWire`) as a simulated device -/

/-- What the driver does on the bus and the clock, in program order. -/
inductive BusEvent where
  | beginTransmission (address : Int)
  | write (data : String)
  | endTransmission
  | delay (ms : Int)
  | requestFrom (address : Int) (quantity : Nat)
  | read
  deriving DecidableEq, Repr

/-- The simulated transport: `rx` holds the bytes delivered by the last request and
not read yet, `replies` what the device answers to the requests still to come,
`trace` every operation performed so far, oldest first. -/
structure TwoWire where
  rx : List Nat
  replies : List (List Nat)
  trace : List BusEvent

namespace TwoWire

/-- Records one operation in the trace. -/
def emit (w : TwoWire) (e : BusEvent) : TwoWire :=
  { w with trace := w.trace ++ [e] }

/-- The call `requestFrom(address, quantity)`: the device's next answer, cut to the
requested number of bytes, becomes readable. -/
def requestFrom (w : TwoWire) (address : Int) (quantity : Nat) : TwoWire :=
  { rx := (w.replies.headD []).take quantity
    replies := w.replies.tail
    trace := w.trace ++ [BusEvent.requestFrom address quantity] }

/-- The call `available()`: the number of bytes that can still be read. -/
def available (w : TwoWire) : Nat := w.rx.length

/-- The call `read()`: the next byte, or `-1` when none is left. -/
def read (w : TwoWire) : Int × TwoWire :=
  match w.rx with
  | [] => (-1, w.emit BusEvent.read)
  | b :: rest => ((b : Int), { w with rx := rest, trace := w.trace ++ [BusEvent.read] })

end TwoWire

/-! ## The driver object -/

/-- The members of `AtlasRGB` that the source file uses, the transport it points to,
and the static cursor `i` of `receiveResponse`. -/
structure AtlasRGB where
  inputString : String
  sensorString : Nat → Nat
  code : Int
  red : Int
  green : Int
  blue : Int
  address : Int
  time : Int
  i : Nat
  wire : TwoWire

/-- What `receiveResponse` returns: the driver's response array or the string
literal `""`. -/
inductive CharPtr where
  | sensorString
  | emptyLiteral
  deriving DecidableEq, Repr

namespace AtlasRGB

/-- Source `setLEDBrightness(value, powerSaving)`: the result and the driver afterwards. -/
def setLEDBrightness (s : AtlasRGB) (value : Int) (powerSaving : Bool) : Int × AtlasRGB :=
  if value < 0 then
    (0, { s with inputString := "L," ++ "?" })
  else if value ≥ 0 ∧ value ≤ 100 then
    if powerSaving then
      (0, { s with inputString := "L," ++ fmtD value ++ ",T" })
    else
      (0, { s with inputString := "L," ++ fmtD value })
  else
    (-1, s)

/-- Source `setIndicatorLED(status, power)`. -/
def setIndicatorLED (s : AtlasRGB) (status : Bool) (power : Bool) : AtlasRGB :=
  if status then
    { s with inputString := "iL," ++ "?" }
  else if power then
    { s with inputString := "iL," ++ "1" }
  else
    { s with inputString := "iL," ++ "0" }

/-- The values of the `case` labels in `setBaudRate`. -/
def baudRates : List Int := [300, 1200, 2400, 9600, 19200, 38400, 57600, 115200]

/-- Source `setBaudRate(value)`: the result and the driver afterwards. -/
def setBaudRate (s : AtlasRGB) (value : Int) : Int × AtlasRGB :=
  if value < 0 then
    (0, { s with inputString := "Baud,?" })
  else if value ∈ baudRates then
    (0, { s with inputString := "Baud," ++ fmtD value })
  else
    (-1, s)

/-- The constant `0.01` of `gammaCorrection`, a `double`. -/
def gammaMin : ℚ := toDouble 1 100

/-- The constant `4.99` of `gammaCorrection`, a `double`. -/
def gammaMax : ℚ := toDouble 499 100

/-- Source `gammaCorrection(value)`: the result and the driver afterwards. The `float`
argument is converted to `double` for the two range comparisons. -/
def gammaCorrection (s : AtlasRGB) (value : CFloat) : Int × AtlasRGB :=
  if value.lt 0 then
    (0, { s with inputString := "G,?" })
  else if value.ge gammaMin ∧ value.le gammaMax then
    (0, { s with inputString := "G," ++ fmtF value })
  else
    (-1, s)

/-- Source `nameDevice(value)`. -/
def nameDevice (s : AtlasRGB) (value : String) : AtlasRGB :=
  if value = "" then
    { s with inputString := "Name,?" }
  else
    { s with inputString := "Name," ++ value }

/-- Source `deviceInformation()`. -/
def deviceInformation (s : AtlasRGB) : AtlasRGB := { s with inputString := "i" }

/-- Source `sleepSensor()`. -/
def sleepSensor (s : AtlasRGB) : AtlasRGB := { s with inputString := "Sleep" }

/-- Source `factoryReset()`. -/
def factoryReset (s : AtlasRGB) : AtlasRGB := { s with inputString := "Factory" }

/-- Source `singleMode()`. -/
def singleMode (s : AtlasRGB) : AtlasRGB := { s with inputString := "R" }

/-- Source `calibrateSensor()`. -/
def calibrateSensor (s : AtlasRGB) : AtlasRGB := { s with inputString := "Cal" }

/-- Source `findSensor()`. -/
def findSensor (s : AtlasRGB) : AtlasRGB := { s with inputString := "Find" }

/-- Source `getStatus()`. -/
def getStatus (s : AtlasRGB) : AtlasRGB := { s with inputString := "Status" }

/-- Source `start(wire)`: `strcpy(sensorString, "")` writes the one byte at index 0; the
static cursor is not touched. -/
def start (s : AtlasRGB) (wire : TwoWire) : AtlasRGB :=
  { s with
    inputString := ""
    sensorString := Function.update s.sensorString 0 0
    wire := wire
    code := 0
    red := 0
    green := 0
    blue := 0
    address := 112
    time := 300 }

/-- Source `sendCommand()`. -/
def sendCommand (s : AtlasRGB) : AtlasRGB :=
  let w1 := s.wire.emit (BusEvent.beginTransmission s.address)
  let w2 := w1.emit (BusEvent.write s.inputString)
  let w3 := w2.emit BusEvent.endTransmission
  { s with wire := w3, inputString := "" }

/-- The `while (wire->available())` loop of `receiveResponse`, at most `n` rounds.
Every round reads one byte, so `n = available()` rounds are all the loop can make
(`receiveLoop_fuel`). `char res = wire->read()` keeps the low eight bits. -/
def receiveLoop : Nat → AtlasRGB → AtlasRGB
  | 0, s => s
  | n + 1, s =>
    if s.wire.available = 0 then s
    else
      let r := s.wire.read
      let res : Nat := (r.1 % 256).toNat
      let s1 : AtlasRGB :=
        { s with wire := r.2, sensorString := Function.update s.sensorString s.i res, i := s.i + 1 }
      if res = 0 then { s1 with i := 0 } else receiveLoop n s1

/-- Source `receiveResponse()`: the pointer returned and the driver afterwards. -/
def receiveResponse (s : AtlasRGB) : CharPtr × AtlasRGB :=
  if s.inputString ≠ "sleep" then
    let w1 := s.wire.emit (BusEvent.delay s.time)
    let w2 := w1.requestFrom s.address 52
    let r := w2.read
    let s1 : AtlasRGB := { s with wire := r.2, code := r.1 }
    (CharPtr.sensorString, receiveLoop s1.wire.available s1)
  else
    (CharPtr.emptyLiteral, s)

/-- Source `run()`. -/
def run (s : AtlasRGB) : CharPtr × AtlasRGB :=
  let s1 := if s.inputString ≠ "" then s.sendCommand else s
  (CharPtr.sensorString, s1.receiveResponse.2)

/-- Source `setup(wire)`, on the singleton. -/
def setup (s : AtlasRGB) (wire : TwoWire) : AtlasRGB :=
  ((s.start wire).deviceInformation.sendCommand).receiveResponse.2

/-- Source `takeMeasurement(data)`, on the singleton; `data` is never written, so the
caller's buffer is not part of the result. -/
def takeMeasurement (s : AtlasRGB) : AtlasRGB :=
  (s.singleMode.sendCommand).receiveResponse.2

/-- Reads a C string out of the array `buf` from index `j`: the bytes in front of
the first zero byte (`n` bounds the bytes looked at). -/
def cstr (buf : Nat → Nat) : Nat → Nat → List Nat
  | 0, _ => []
  | n + 1, j => if buf j = 0 then [] else buf j :: cstr buf n (j + 1)

/-- The characters a `char *` result points to, read as a C string: those of the
response array, or none for the literal `""`. -/
def deref (s : AtlasRGB) (n : Nat) : CharPtr → List Nat
  | CharPtr.sensorString => cstr s.sensorString n 0
  | CharPtr.emptyLiteral => []

end AtlasRGB

/-! ## `sensor.cpp` -/

/-- The two members of `SensorDriver` used by `sensor.cpp`. -/
structure SensorDriver where
  burstCount : Nat
  burstLength : Nat

namespace SensorDriver

/-- Source `initializeBurst()`. -/
def initializeBurst (d : SensorDriver) : SensorDriver := { d with burstCount := 0 }

/-- Source `incrementBurst()`. The counter's declaration (`sensor.h`) is not among the
sources: the spec gives the counter as unsigned, and its width in bits is the
parameter `w`. -/
def incrementBurst (w : Nat) (d : SensorDriver) : SensorDriver :=
  { d with burstCount := (d.burstCount + 1) % 2 ^ w }

/-- Source `burstCompleted()`. -/
def burstCompleted (d : SensorDriver) : Bool := d.burstCount == d.burstLength

end SensorDriver

/-- The fields of `common_config_sensor` that `getDefaultsCommon` fills. -/
structure common_config_sensor where
  sensor_type : Int
  slot : Int
  sensor_burst : Int
  warmup : Int
  tag : String
  column_prefix : String
  padding : String

/-- Source `getDefaultsCommon(fillValues)`. -/
def getDefaultsCommon (_fillValues : common_config_sensor) : common_config_sensor :=
  { sensor_type := 1
    slot := 1
    sensor_burst := 10
    warmup := 54321
    tag := "CCS"
    column_prefix := "test"
    padding := "0000000000000000" }


/-! ## The driver in the logger -/

/-- The colour-sensor driver as the logger holds it: the burst bookkeeping of
`SensorDriver`, and the singleton `rgbSensor` on which `setup` and
`takeMeasurement` do all their work (`AtlasRGB::instance()`). -/
structure ColorSensor where
  base : SensorDriver
  rgb : AtlasRGB

namespace ColorSensor

/-- Source `setup(wire)` of the driver. -/
def setup (x : ColorSensor) (wire : TwoWire) : ColorSensor :=
  { x with rgb := x.rgb.setup wire }

/-- Source `takeMeasurement(data)` of the driver. -/
def takeMeasurement (x : ColorSensor) : ColorSensor :=
  { x with rgb := x.rgb.takeMeasurement }

/-- Source `initializeBurst()` of the driver. -/
def initializeBurst (x : ColorSensor) : ColorSensor :=
  { x with base := x.base.initializeBurst }

/-- Source `incrementBurst()` of the driver. -/
def incrementBurst (w : Nat) (x : ColorSensor) : ColorSensor :=
  { x with base := x.base.incrementBurst w }

/-- Source `burstCompleted()` of the driver. -/
def burstCompleted (x : ColorSensor) : Bool := x.base.burstCompleted

end ColorSensor

/-! ## Sequences of calls -/

/-- Source `takeMeasurement(data)` with the caller's buffer made explicit: the body
never refers to `data`, so the buffer comes back as it went in, beside the
singleton after the cycle. -/
def AtlasRGB.takeMeasurementInto (s : AtlasRGB) (data : Nat → Nat) : (Nat → Nat) × AtlasRGB :=
  (data, s.takeMeasurement)

/-- One call on the driver object: a command builder with its arguments, or a
step of the protocol engine. -/
inductive Op where
  | setLEDBrightness (value : Int) (powerSaving : Bool)
  | setIndicatorLED (status : Bool) (power : Bool)
  | setBaudRate (value : Int)
  | gammaCorrection (value : CFloat)
  | nameDevice (value : String)
  | deviceInformation
  | sleepSensor
  | factoryReset
  | singleMode
  | calibrateSensor
  | findSensor
  | getStatus
  | sendCommand
  | receiveResponse
  | run
  | takeMeasurement

/-- The driver after one call. -/
def AtlasRGB.step (s : AtlasRGB) : Op → AtlasRGB
  | Op.setLEDBrightness value powerSaving => (s.setLEDBrightness value powerSaving).2
  | Op.setIndicatorLED status power => s.setIndicatorLED status power
  | Op.setBaudRate value => (s.setBaudRate value).2
  | Op.gammaCorrection value => (s.gammaCorrection value).2
  | Op.nameDevice value => s.nameDevice value
  | Op.deviceInformation => s.deviceInformation
  | Op.sleepSensor => s.sleepSensor
  | Op.factoryReset => s.factoryReset
  | Op.singleMode => s.singleMode
  | Op.calibrateSensor => s.calibrateSensor
  | Op.findSensor => s.findSensor
  | Op.getStatus => s.getStatus
  | Op.sendCommand => s.sendCommand
  | Op.receiveResponse => s.receiveResponse.2
  | Op.run => s.run.2
  | Op.takeMeasurement => s.takeMeasurement

/-- The driver after a sequence of calls, first to last. -/
def AtlasRGB.steps (s : AtlasRGB) (ops : List Op) : AtlasRGB := ops.foldl AtlasRGB.step s

/-- A device answer that fits the 52-byte request, is made of bytes, and has a zero
byte among the bytes after the status byte. -/
def terminatedReply (r : List Nat) : Prop :=
  r.length ≤ 52 ∧ (∀ b ∈ r, b < 256) ∧ 0 ∈ r.tail

instance (r : List Nat) : Decidable (terminatedReply r) := by
  unfold terminatedReply
  infer_instance

/-- The cursor is at rest and every answer the device still has to give is a
terminated one. -/
def AtlasRGB.cursorAtRest (s : AtlasRGB) : Prop :=
  s.i = 0 ∧ ∀ r ∈ s.wire.replies, terminatedReply r

/-- The finite values of type `float`: a significand of at most 24 binary digits
scaled by a power of two (the exponent range is not needed here and left open). -/
def isBinary32 (q : ℚ) : Prop :=
  ∃ m e : Nat, m < 2 ^ 24 ∧ (|q| = (m : ℚ) * 2 ^ e ∨ |q| = (m : ℚ) / 2 ^ e)

/-! ## Fixtures -/

/-- The array `buf` after the bytes `bs` were stored from index `i` on. -/
def pokeList (buf : Nat → Nat) : Nat → List Nat → Nat → Nat
  | _, [] => buf
  | i, b :: bs => pokeList (Function.update buf i b) (i + 1) bs

/-- The bytes of an ASCII string. -/
def asciiBytes (s : String) : List Nat := s.data.map Char.toNat

/-- A transport whose device will answer the coming requests with `replies`. -/
def TwoWire.scripted (replies : List (List Nat)) : TwoWire :=
  { rx := [], replies := replies, trace := [] }

/-- The driver `s` facing a device that will answer the coming requests with
`replies`. -/
def AtlasRGB.withReplies (s : AtlasRGB) (replies : List (List Nat)) : AtlasRGB :=
  { s with wire := { s.wire with replies := replies } }

/-- A transport with nothing to deliver and an empty trace. -/
def TwoWire.silent : TwoWire := { rx := [], replies := [], trace := [] }

/-- A driver object with every member zero and an empty command buffer. -/
def AtlasRGB.blank : AtlasRGB :=
  { inputString := ""
    sensorString := fun _ => 0
    code := 0
    red := 0
    green := 0
    blue := 0
    address := 0
    time := 0
    i := 0
    wire := TwoWire.silent }

/-- Reads a string of decimal digits back as a number. -/
def readD (cs : List Char) : Nat :=
  cs.foldl (fun acc c => 10 * acc + (c.toNat - '0'.toNat)) 0

/-! ## The command builders -/

/-- On 0..100 `fmtD` writes decimal digits only, as many as the value needs, and
they read back as the value. -/
theorem fmtD_readD :
    ∀ n < 101, readD (fmtD (n : Nat)).data = n ∧ (∀ c ∈ (fmtD (n : Nat)).data, c.isDigit) ∧
      (fmtD (n : Nat)).data.length = if n < 10 then 1 else if n < 100 then 2 else 3 := by
  decide

/-- What `fmtD` writes for the eight baud rates. -/
theorem fmtD_baudRates :
    AtlasRGB.baudRates.map fmtD =
      ["300", "1200", "2400", "9600", "19200", "38400", "57600", "115200"] := by
  decide

/-- The first branch of `setLEDBrightness`: a negative value asks for the status. -/
theorem setLEDBrightness_neg (s : AtlasRGB) (v : Int) (p : Bool) (h : v < 0) :
    s.setLEDBrightness v p = (0, { s with inputString := "L,?" }) := by
  simp only [AtlasRGB.setLEDBrightness, if_pos h]
  rfl

/-- C1: for 0 ≤ v ≤ 100, `setLEDBrightness(v, powerSaving)` returns 0 and leaves the
command buffer equal to "L,<decimal v>", or "L,<decimal v>,T" with power saving,
whatever the buffer held before; no other member changes. -/
theorem setLEDBrightness_in_range (s : AtlasRGB) (v : Int) (powerSaving : Bool)
    (h0 : 0 ≤ v) (h100 : v ≤ 100) :
    s.setLEDBrightness v powerSaving =
      (0, { s with inputString :=
              if powerSaving then "L," ++ fmtD v ++ ",T" else "L," ++ fmtD v }) := by
  have hneg : ¬ v < 0 := not_lt.mpr h0
  cases powerSaving <;> simp [AtlasRGB.setLEDBrightness, hneg, h0, h100]

/-- C1 at v = 100 with power saving, over a buffer that held "Sleep": the result is
0 and the buffer is "L,100,T". -/
theorem setLEDBrightness_in_range_witness :
    (0 : Int) ≤ 100 ∧ (100 : Int) ≤ 100 ∧
    (AtlasRGB.blank.sleepSensor.setLEDBrightness 100 true).1 = 0 ∧
    (AtlasRGB.blank.sleepSensor.setLEDBrightness 100 true).2.inputString = "L,100,T" := by
  have h := setLEDBrightness_in_range AtlasRGB.blank.sleepSensor 100 true (by decide) (by decide)
  refine ⟨by decide, by decide, ?_, ?_⟩
  · rw [h]
  · rw [h]; decide

/-- C2, as stated, fails below the range: `setLEDBrightness(-1, false)` on an empty
command buffer returns 0, not -1, and the buffer becomes "L,?". -/
theorem setLEDBrightness_below_range_counterexample :
    ((-1 : Int) < 0 ∨ (100 : Int) < -1) ∧
    AtlasRGB.blank.inputString = "" ∧
    (AtlasRGB.blank.setLEDBrightness (-1) false).1 = 0 ∧
    (AtlasRGB.blank.setLEDBrightness (-1) false).2.inputString = "L,?" ∧
    ¬ ((AtlasRGB.blank.setLEDBrightness (-1) false).1 = -1 ∧
       (AtlasRGB.blank.setLEDBrightness (-1) false).2.inputString =
         AtlasRGB.blank.inputString) := by
  rw [setLEDBrightness_neg AtlasRGB.blank (-1) false (by decide)]
  refine ⟨by decide, rfl, rfl, rfl, ?_⟩
  intro h
  exact absurd h.1 (by decide)

/-- C2 (amended): for every v above 100, `setLEDBrightness(v, powerSaving)` returns
-1 and leaves the driver, its command buffer included, as it was. -/
theorem setLEDBrightness_above_range (s : AtlasRGB) (v : Int) (powerSaving : Bool)
    (h : 100 < v) :
    s.setLEDBrightness v powerSaving = (-1, s) := by
  have hneg : ¬ v < 0 := by omega
  have hle : ¬ v ≤ 100 := by omega
  simp [AtlasRGB.setLEDBrightness, hneg, hle]

/-- C2 (amended) at v = 101 over a buffer that held "R": the result is -1 and the
buffer still holds "R". -/
theorem setLEDBrightness_above_range_witness :
    (100 : Int) < 101 ∧
    (AtlasRGB.blank.singleMode.setLEDBrightness 101 true).1 = -1 ∧
    (AtlasRGB.blank.singleMode.setLEDBrightness 101 true).2.inputString = "R" := by
  have h := setLEDBrightness_above_range AtlasRGB.blank.singleMode 101 true (by decide)
  refine ⟨by decide, ?_, ?_⟩
  · rw [h]
  · rw [h]; rfl

/-- The first branch of `setBaudRate`: a negative value asks for the status. -/
theorem setBaudRate_neg (s : AtlasRGB) (v : Int) (h : v < 0) :
    s.setBaudRate v = (0, { s with inputString := "Baud,?" }) := by
  simp only [AtlasRGB.setBaudRate, if_pos h]

/-- C3: for each of 300, 1200, 2400, 9600, 19200, 38400, 57600 and 115200,
`setBaudRate(value)` returns 0 and leaves the command buffer equal to
"Baud,<decimal value>"; for every other positive value it returns -1. -/
theorem setBaudRate_table (s : AtlasRGB) (v : Int) :
    ((v = 300 ∨ v = 1200 ∨ v = 2400 ∨ v = 9600 ∨ v = 19200 ∨ v = 38400 ∨ v = 57600 ∨
        v = 115200) →
      s.setBaudRate v = (0, { s with inputString := "Baud," ++ fmtD v })) ∧
    (0 < v →
      ¬ (v = 300 ∨ v = 1200 ∨ v = 2400 ∨ v = 9600 ∨ v = 19200 ∨ v = 38400 ∨ v = 57600 ∨
        v = 115200) →
      (s.setBaudRate v).1 = -1) := by
  constructor
  · intro h
    have hneg : ¬ v < 0 := by omega
    have hmem : v ∈ AtlasRGB.baudRates := by
      simp only [AtlasRGB.baudRates, List.mem_cons, List.mem_singleton, List.mem_nil_iff,
        or_false]
      exact h
    simp only [AtlasRGB.setBaudRate, if_neg hneg, if_pos hmem]
  · intro hpos h
    have hneg : ¬ v < 0 := by omega
    have hmem : ¬ v ∈ AtlasRGB.baudRates := by
      simp only [AtlasRGB.baudRates, List.mem_cons, List.mem_singleton, List.mem_nil_iff,
        or_false]
      exact h
    simp only [AtlasRGB.setBaudRate, if_neg hneg, if_neg hmem]

/-- C3 at 115200 and at 9601: the first gives 0 and the buffer "Baud,115200", the
second gives -1. -/
theorem setBaudRate_table_witness :
    ((AtlasRGB.blank.setBaudRate 115200).1 = 0 ∧
      (AtlasRGB.blank.setBaudRate 115200).2.inputString = "Baud,115200") ∧
    (AtlasRGB.blank.setBaudRate 9601).1 = -1 := by
  have h1 := (setBaudRate_table AtlasRGB.blank 115200).1 (by decide)
  have h2 := (setBaudRate_table AtlasRGB.blank 9601).2 (by decide) (by decide)
  refine ⟨⟨?_, ?_⟩, h2⟩
  · rw [h1]
  · rw [h1]; decide

/-! ## The range check of `gammaCorrection` -/

/-- The `float` written `0.01`: 10737418 * 2^-30, a 24-digit significand within half
a unit in the last place of 1/100, and below 1/100. -/
theorem toFloat_one_hundredth :
    toFloat 1 100 = 10737418 / 2 ^ 30 ∧ 2 ^ 23 ≤ 10737418 ∧ 10737418 < 2 ^ 24 ∧
    |toFloat 1 100 - 1 / 100| < 1 / 2 ^ 31 ∧ toFloat 1 100 < 1 / 100 := by
  have h : roundBinary 24 (-149) 1 100 = (10737418, -30) := by decide
  have e : toFloat 1 100 = 10737418 / 2 ^ 30 := by
    rw [toFloat, h, dyadic]
    norm_num
  rw [e]
  refine ⟨rfl, by norm_num, by norm_num, ?_, by norm_num⟩
  rw [abs_lt]
  constructor <;> norm_num

/-- The `double` written `0.01`: 5764607523034235 * 2^-59, a 53-digit significand
within half a unit in the last place of 1/100, and above 1/100. -/
theorem gammaMin_eq :
    AtlasRGB.gammaMin = 5764607523034235 / 2 ^ 59 ∧ 2 ^ 52 ≤ 5764607523034235 ∧
    5764607523034235 < 2 ^ 53 ∧ |AtlasRGB.gammaMin - 1 / 100| < 1 / 2 ^ 60 ∧
    1 / 100 < AtlasRGB.gammaMin := by
  have h : roundBinary 53 (-1074) 1 100 = (5764607523034235, -59) := by decide
  have e : AtlasRGB.gammaMin = 5764607523034235 / 2 ^ 59 := by
    rw [AtlasRGB.gammaMin, toDouble, h, dyadic]
    norm_num
  rw [e]
  refine ⟨rfl, by norm_num, by norm_num, ?_, by norm_num⟩
  rw [abs_lt]
  constructor <;> norm_num

/-- The `double` written `4.99`. -/
theorem gammaMax_eq : AtlasRGB.gammaMax = 2809120267572347 / 2 ^ 49 := by
  have h : roundBinary 53 (-1074) 499 100 = (5618240535144694, -50) := by decide
  rw [AtlasRGB.gammaMax, toDouble, h, dyadic]
  norm_num

/-- The `float` written `4.99`. -/
theorem toFloat_4_99 : toFloat 499 100 = 2616197 / 2 ^ 19 := by
  have h : roundBinary 24 (-149) 499 100 = (10464788, -21) := by decide
  rw [toFloat, h, dyadic]
  norm_num

/-- The `float` written `0.00999`. -/
theorem toFloat_0_00999 : toFloat 999 100000 = 10726681 / 2 ^ 30 := by
  have h : roundBinary 24 (-149) 999 100000 = (10726681, -30) := by decide
  rw [toFloat, h, dyadic]
  norm_num

/-- The `float` written `5.00`. -/
theorem toFloat_5 : toFloat 5 1 = 5 := by
  have h : roundBinary 24 (-149) 5 1 = (10485760, -21) := by decide
  rw [toFloat, h, dyadic]
  norm_num

/-- What `gammaCorrection` returns for a finite argument: 0 for a negative value and
for one between the two `double` constants, -1 otherwise. -/
theorem gammaCorrection_finite (s : AtlasRGB) (q : ℚ) :
    (s.gammaCorrection (CFloat.finite q)).1 =
      if q < 0 ∨ (AtlasRGB.gammaMin ≤ q ∧ q ≤ AtlasRGB.gammaMax) then 0 else -1 := by
  by_cases h0 : q < 0
  · simp [AtlasRGB.gammaCorrection, CFloat.lt, h0]
  · by_cases h1 : AtlasRGB.gammaMin ≤ q ∧ q ≤ AtlasRGB.gammaMax
    · simp [AtlasRGB.gammaCorrection, CFloat.lt, CFloat.ge, CFloat.le, h0, h1]
    · have h2 : ¬ (q < 0 ∨ (AtlasRGB.gammaMin ≤ q ∧ q ≤ AtlasRGB.gammaMax)) := by
        rintro (h | h)
        · exact h0 h
        · exact h1 h
      simp only [AtlasRGB.gammaCorrection, CFloat.lt, CFloat.ge, CFloat.le,
        decide_eq_true_eq, if_neg h0, if_neg h1, if_neg h2]

/-- C4: the code at the four arguments of the claim. `gammaCorrection(4.99f)`
returns 0 and `gammaCorrection(0.00999f)`, `gammaCorrection(5.00f)` return -1, as
claimed; `gammaCorrection(0.01f)` returns -1 and changes nothing, because the
`float` nearest to 0.01 is below the `double` constant `0.01` it is compared with. -/
theorem gammaCorrection_boundaries (s : AtlasRGB) :
    s.gammaCorrection (CFloat.finite (toFloat 1 100)) = (-1, s) ∧
    (s.gammaCorrection (CFloat.finite (toFloat 499 100))).1 = 0 ∧
    s.gammaCorrection (CFloat.finite (toFloat 999 100000)) = (-1, s) ∧
    s.gammaCorrection (CFloat.finite (toFloat 5 1)) = (-1, s) := by
  have hmin := gammaMin_eq.1
  have hmax := gammaMax_eq
  have a := toFloat_one_hundredth.1
  refine ⟨?_, ?_, ?_, ?_⟩
  · rw [a]
    simp only [AtlasRGB.gammaCorrection, CFloat.lt, CFloat.ge, CFloat.le, hmin, hmax]
    norm_num
  · rw [gammaCorrection_finite, toFloat_4_99, hmin, hmax]
    norm_num
  · rw [toFloat_0_00999]
    simp only [AtlasRGB.gammaCorrection, CFloat.lt, CFloat.ge, CFloat.le, hmin, hmax]
    norm_num
  · rw [toFloat_5]
    simp only [AtlasRGB.gammaCorrection, CFloat.lt, CFloat.ge, CFloat.le, hmin, hmax]
    norm_num

/-- The first branch of `gammaCorrection`: a negative value asks for the status. -/
theorem gammaCorrection_neg (s : AtlasRGB) (f : CFloat) (h : f.lt 0 = true) :
    s.gammaCorrection f = (0, { s with inputString := "G,?" }) := by
  simp only [AtlasRGB.gammaCorrection, h, if_true]

/-- C5: for a negative argument each of `setLEDBrightness` (either power-saving
flag), `setBaudRate` and `gammaCorrection` returns 0 and leaves the command buffer
equal to the query form of its verb, "L,?", "Baud,?" and "G,?", whatever the
buffer held before; no other member changes. -/
theorem query_sentinel (s : AtlasRGB) (v : Int) (powerSaving : Bool) (f : CFloat)
    (hv : v < 0) (hf : f.lt 0 = true) :
    s.setLEDBrightness v powerSaving = (0, { s with inputString := "L,?" }) ∧
    s.setBaudRate v = (0, { s with inputString := "Baud,?" }) ∧
    s.gammaCorrection f = (0, { s with inputString := "G,?" }) :=
  ⟨setLEDBrightness_neg s v powerSaving hv, setBaudRate_neg s v hv, gammaCorrection_neg s f hf⟩

/-- C5 at -1 (and the `float` -1/2) over a buffer that held "Status". -/
theorem query_sentinel_witness :
    (-1 : Int) < 0 ∧ (CFloat.finite (-1 / 2)).lt 0 = true ∧
    (AtlasRGB.blank.getStatus.setLEDBrightness (-1) true).1 = 0 ∧
    (AtlasRGB.blank.getStatus.setLEDBrightness (-1) true).2.inputString = "L,?" ∧
    (AtlasRGB.blank.getStatus.setBaudRate (-1)).1 = 0 ∧
    (AtlasRGB.blank.getStatus.setBaudRate (-1)).2.inputString = "Baud,?" ∧
    (AtlasRGB.blank.getStatus.gammaCorrection (CFloat.finite (-1 / 2))).1 = 0 ∧
    (AtlasRGB.blank.getStatus.gammaCorrection (CFloat.finite (-1 / 2))).2.inputString =
      "G,?" := by
  have hf : (CFloat.finite (-1 / 2)).lt 0 = true := by
    simp only [CFloat.lt, decide_eq_true_eq]
    norm_num
  have h := query_sentinel AtlasRGB.blank.getStatus (-1) true (CFloat.finite (-1 / 2))
    (by decide) hf
  refine ⟨by decide, hf, ?_, ?_, ?_, ?_, ?_, ?_⟩
  · rw [h.1]
  · rw [h.1]
  · rw [h.2.1]
  · rw [h.2.1]
  · rw [h.2.2]
  · rw [h.2.2]

/-! ## The burst counter -/

/-- After `initializeBurst` and `n` calls of `incrementBurst` the counter holds
`n` reduced to the counter's width, and the configured length is as before. -/
theorem burst_iterate (w n : Nat) (d : SensorDriver) :
    ((SensorDriver.incrementBurst w)^[n] d.initializeBurst).burstCount = n % 2 ^ w ∧
    ((SensorDriver.incrementBurst w)^[n] d.initializeBurst).burstLength = d.burstLength := by
  induction n with
  | zero => exact ⟨by simp [SensorDriver.initializeBurst], rfl⟩
  | succ n ih =>
    rw [Function.iterate_succ_apply']
    refine ⟨?_, ih.2⟩
    show (_ + 1) % 2 ^ w = (n + 1) % 2 ^ w
    rw [ih.1, Nat.mod_add_mod]

/-- C6: for a configured burstLength (one the counter's type can hold, ≥ 1 or not)
and 0 ≤ N ≤ burstLength, after `initializeBurst()` and exactly N calls of
`incrementBurst()`, `burstCompleted()` is true if and only if N = burstLength,
whatever the counter held before. -/
theorem burstCompleted_iff (w N : Nat) (d : SensorDriver)
    (hw : d.burstLength < 2 ^ w) (hN : N ≤ d.burstLength) :
    ((SensorDriver.incrementBurst w)^[N] d.initializeBurst).burstCompleted = true ↔
      N = d.burstLength := by
  have h := burst_iterate w N d
  have hlt : N < 2 ^ w := lt_of_le_of_lt hN hw
  simp only [SensorDriver.burstCompleted, beq_iff_eq, h.1, h.2, Nat.mod_eq_of_lt hlt]

/-- C6 with a 16-bit counter that held 7, burst length 3: not completed after 0, 1
and 2 increments, completed after 3. -/
theorem burstCompleted_iff_witness :
    (((SensorDriver.incrementBurst 16)^[3]
        (SensorDriver.initializeBurst { burstCount := 7, burstLength := 3 })).burstCompleted
      = true ↔ 3 = 3) ∧
    (((SensorDriver.incrementBurst 16)^[2]
        (SensorDriver.initializeBurst { burstCount := 7, burstLength := 3 })).burstCompleted
      = true ↔ 2 = 3) :=
  ⟨burstCompleted_iff 16 3 { burstCount := 7, burstLength := 3 } (by decide) (by decide),
   burstCompleted_iff 16 2 { burstCount := 7, burstLength := 3 } (by decide) (by decide)⟩

/-- C7, as stated, fails: with burst length 1 (16-bit counter), `burstCompleted()`
is true after one `incrementBurst()` and false after a second one, the counter
then holding 2 > burstLength. -/
theorem burst_overshoot_counterexample :
    ((SensorDriver.incrementBurst 16)^[1]
        (SensorDriver.initializeBurst { burstCount := 0, burstLength := 1 })).burstCompleted
      = true ∧
    ((SensorDriver.incrementBurst 16)^[2]
        (SensorDriver.initializeBurst { burstCount := 0, burstLength := 1 })).burstCompleted
      = false ∧
    ((SensorDriver.incrementBurst 16)^[2]
        (SensorDriver.initializeBurst { burstCount := 0, burstLength := 1 })).burstCount = 2 ∧
    ((SensorDriver.incrementBurst 16)^[2]
        (SensorDriver.initializeBurst { burstCount := 0, burstLength := 1 })).burstLength = 1 := by
  decide

/-- C7 (amended): `initializeBurst` establishes burstCount ≤ burstLength, and
`incrementBurst` keeps it from every state with burstCount < burstLength; from a
state that satisfies it (burstLength within the counter's range) it is kept
exactly when burstCount < burstLength or the increment wraps the counter
(burstLength + 1 = 2^w, w the counter's width). `incrementBurst` is unconditional,
with no saturation: from a state where `burstCompleted()` is true it leads to one
where `burstCompleted()` is false; the counter then holds burstLength + 1, above
the configured length, when that value fits the counter's type, and has wrapped
to 0 when it does not. -/
theorem burst_invariant_until_complete (w : Nat) (d : SensorDriver) (hw : 1 ≤ w) :
    d.initializeBurst.burstCount ≤ d.initializeBurst.burstLength ∧
    (d.burstCount < d.burstLength →
      (d.incrementBurst w).burstCount ≤ (d.incrementBurst w).burstLength) ∧
    (d.burstCount ≤ d.burstLength → d.burstLength < 2 ^ w →
      ((d.incrementBurst w).burstCount ≤ (d.incrementBurst w).burstLength ↔
        (d.burstCount < d.burstLength ∨ d.burstLength + 1 = 2 ^ w))) ∧
    (d.burstCompleted = true →
      (d.incrementBurst w).burstCompleted = false ∧
      (d.burstLength + 1 < 2 ^ w →
        (d.incrementBurst w).burstCount = d.burstLength + 1 ∧
        (d.incrementBurst w).burstLength < (d.incrementBurst w).burstCount) ∧
      (d.burstLength + 1 = 2 ^ w → (d.incrementBurst w).burstCount = 0)) := by
  have hP : 2 ≤ 2 ^ w := by
    calc 2 = 2 ^ 1 := rfl
      _ ≤ 2 ^ w := Nat.pow_le_pow_right (by decide) hw
  refine ⟨Nat.zero_le _, ?_, ?_, ?_⟩
  · intro h
    show (d.burstCount + 1) % 2 ^ w ≤ d.burstLength
    exact le_trans (Nat.mod_le _ _) h
  · intro hle hfit
    show (d.burstCount + 1) % 2 ^ w ≤ d.burstLength ↔ _
    by_cases hlt : d.burstCount + 1 < 2 ^ w
    · rw [Nat.mod_eq_of_lt hlt]
      constructor
      · intro h
        exact Or.inl (by omega)
      · rintro (h | h)
        · omega
        · omega
    · have he : d.burstCount + 1 = 2 ^ w := by omega
      rw [he, Nat.mod_self]
      constructor
      · intro _
        exact Or.inr (by omega)
      · intro _
        exact Nat.zero_le _
  · intro h
    simp only [SensorDriver.burstCompleted, beq_iff_eq] at h
    refine ⟨?_, ?_, ?_⟩
    · simp only [SensorDriver.burstCompleted, SensorDriver.incrementBurst,
        beq_eq_false_iff_ne, ne_eq, h]
      intro hmod
      by_cases hlt : d.burstLength + 1 < 2 ^ w
      · rw [Nat.mod_eq_of_lt hlt] at hmod
        omega
      · have hb : (d.burstLength + 1) % 2 ^ w < 2 ^ w := Nat.mod_lt _ (by omega)
        have he : d.burstLength + 1 = 2 ^ w := by omega
        rw [he, Nat.mod_self] at hmod
        omega
    · intro hlt
      have e : (d.incrementBurst w).burstCount = d.burstLength + 1 := by
        show (d.burstCount + 1) % 2 ^ w = d.burstLength + 1
        rw [h, Nat.mod_eq_of_lt hlt]
      refine ⟨e, ?_⟩
      rw [e]
      show d.burstLength < d.burstLength + 1
      omega
    · intro he
      show (d.burstCount + 1) % 2 ^ w = 0
      rw [h, he, Nat.mod_self]

/-- C7 (amended) with a 16-bit counter. From burstCount = 1 = burstLength, where
`burstCompleted()` is true, one more `incrementBurst()` makes it false and the
counter holds 2, above the length; from burstCount = 65535 = burstLength it makes
it false and the counter has wrapped to 0. -/
theorem burst_invariant_until_complete_witness :
    1 ≤ 16 ∧
    SensorDriver.burstCompleted { burstCount := 1, burstLength := 1 } = true ∧
    (SensorDriver.incrementBurst 16 { burstCount := 1, burstLength := 1 }).burstCompleted
      = false ∧
    (SensorDriver.incrementBurst 16 { burstCount := 1, burstLength := 1 }).burstCount = 2 ∧
    SensorDriver.burstCompleted { burstCount := 65535, burstLength := 65535 } = true ∧
    (SensorDriver.incrementBurst 16
      { burstCount := 65535, burstLength := 65535 }).burstCompleted = false ∧
    (SensorDriver.incrementBurst 16 { burstCount := 65535, burstLength := 65535 }).burstCount
      = 0 :=
  ⟨by decide, by decide,
   ((burst_invariant_until_complete 16 { burstCount := 1, burstLength := 1 } (by decide)).2.2.2
     (by decide)).1,
   (((burst_invariant_until_complete 16 { burstCount := 1, burstLength := 1 }
     (by decide)).2.2.2 (by decide)).2.1 (by decide)).1,
   by decide,
   ((burst_invariant_until_complete 16 { burstCount := 65535, burstLength := 65535 }
     (by decide)).2.2.2 (by decide)).1,
   ((burst_invariant_until_complete 16 { burstCount := 65535, burstLength := 65535 }
     (by decide)).2.2.2 (by decide)).2.2 (by decide)⟩

/-! ## The decode loop -/

/-- Storing a list of bytes leaves the array below the first index as it was. -/
theorem pokeList_below (bs : List Nat) :
    ∀ (buf : Nat → Nat) (i j : Nat), j < i → pokeList buf i bs j = buf j := by
  induction bs with
  | nil => intro buf i j _; rfl
  | cons b bs ih =>
    intro buf i j h
    rw [pokeList, ih _ _ _ (by omega), Function.update_noteq (by omega)]

/-- Storing a list of bytes puts its k-th byte at the k-th index from the start. -/
theorem pokeList_at (bs : List Nat) :
    ∀ (buf : Nat → Nat) (i k : Nat) (hk : k < bs.length),
      pokeList buf i bs (i + k) = bs.get ⟨k, hk⟩ := by
  induction bs with
  | nil => intro buf i k hk; exact absurd hk (by simp)
  | cons b bs ih =>
    intro buf i k hk
    cases k with
    | zero =>
      rw [pokeList, pokeList_below bs _ _ _ (by omega)]
      simp
    | succ k =>
      have hk2 : k < bs.length := by simpa using hk
      have e : i + (k + 1) = (i + 1) + k := by omega
      rw [pokeList, e, ih _ _ _ hk2]
      rfl

/-- Storing a list of bytes leaves the array past the last index as it was. -/
theorem pokeList_above (bs : List Nat) :
    ∀ (buf : Nat → Nat) (i j : Nat), i + bs.length ≤ j → pokeList buf i bs j = buf j := by
  induction bs with
  | nil => intro buf i j _; rfl
  | cons b bs ih =>
    intro buf i j h
    have h2 : i + 1 + bs.length ≤ j := by simp only [List.length_cons] at h; omega
    rw [pokeList, ih _ _ _ h2, Function.update_noteq (by omega)]

/-- Reading a C string finds the bytes `p` when the array holds `p` and then a zero
byte from the start index on, and `p` has no zero byte. -/
theorem cstr_of_terminated (buf : Nat → Nat) (p : List Nat) :
    ∀ (n j : Nat), p.length < n → (∀ b ∈ p, b ≠ 0) →
      (∀ k (hk : k < p.length), buf (j + k) = p.get ⟨k, hk⟩) → buf (j + p.length) = 0 →
      AtlasRGB.cstr buf n j = p := by
  induction p with
  | nil =>
    intro n j hn _ _ h0
    obtain ⟨m, rfl⟩ : ∃ m, n = m + 1 := ⟨n - 1, by simp at hn; omega⟩
    simp only [List.length_nil, Nat.add_zero] at h0
    simp [AtlasRGB.cstr, h0]
  | cons b p ih =>
    intro n j hn hnz hget h0
    obtain ⟨m, rfl⟩ : ∃ m, n = m + 1 := ⟨n - 1, by omega⟩
    have hb : buf j = b := by
      have := hget 0 (by simp)
      simpa using this
    have hbnz : b ≠ 0 := hnz b (List.mem_cons_self _ _)
    have hrec : AtlasRGB.cstr buf m (j + 1) = p := by
      apply ih
      · simp only [List.length_cons] at hn; omega
      · intro c hc; exact hnz c (List.mem_cons_of_mem _ hc)
      · intro k hk
        have := hget (k + 1) (by simp only [List.length_cons]; omega)
        have e : j + 1 + k = j + (k + 1) := by omega
        rw [e, this]
        rfl
      · have e : j + 1 + p.length = j + (b :: p).length := by
          simp only [List.length_cons]; omega
        rw [e]; exact h0
    simp only [AtlasRGB.cstr, hb, if_neg hbnz, hrec]

/-- The decode loop on a terminated payload: with the bytes `p` (none zero), a zero
byte and `rest` waiting, the loop reads `p` and the zero byte, stores them from the
cursor on, leaves `rest` unread and resets the cursor. -/
theorem receiveLoop_terminated (p rest : List Nat) :
    ∀ (n : Nat) (s : AtlasRGB), (∀ b ∈ p, b ≠ 0 ∧ b < 256) → s.wire.rx = p ++ 0 :: rest →
      p.length < n →
      AtlasRGB.receiveLoop n s =
        { s with
          wire :=
            { s.wire with
              rx := rest
              trace := s.wire.trace ++ List.replicate (p.length + 1) BusEvent.read }
          sensorString := pokeList s.sensorString s.i (p ++ [0])
          i := 0 } := by
  induction p with
  | nil =>
    intro n s _ hrx hn
    obtain ⟨m, rfl⟩ : ∃ m, n = m + 1 := ⟨n - 1, by omega⟩
    simp [AtlasRGB.receiveLoop, TwoWire.available, TwoWire.read, hrx, pokeList]
  | cons b p ih =>
    intro n s hb hrx hn
    obtain ⟨m, rfl⟩ : ∃ m, n = m + 1 := ⟨n - 1, by omega⟩
    have hb0 := hb b (List.mem_cons_self _ _)
    have hres : ((b : Int) % 256).toNat = b := by omega
    have hp : ∀ c ∈ p, c ≠ 0 ∧ c < 256 := fun c hc => hb c (List.mem_cons_of_mem _ hc)
    have hm : p.length < m := by simp only [List.length_cons] at hn; omega
    rw [AtlasRGB.receiveLoop]
    simp only [TwoWire.available, TwoWire.read, hrx, List.cons_append, List.length_cons,
      Nat.add_one_ne_zero, if_false, hres, if_neg hb0.1]
    rw [ih m _ hp rfl hm]
    simp [pokeList, List.replicate_succ]

/-- The loop reads one byte a round, so `available()` rounds are all it can make:
more fuel changes nothing. -/
theorem receiveLoop_fuel :
    ∀ (n : Nat) (s : AtlasRGB), s.wire.available ≤ n →
      AtlasRGB.receiveLoop n s = AtlasRGB.receiveLoop s.wire.available s := by
  intro n
  induction n with
  | zero =>
    intro s h
    have h0 : s.wire.available = 0 := by omega
    rw [h0]
  | succ n ih =>
    intro s h
    cases hrx : s.wire.rx with
    | nil =>
      have h0 : s.wire.available = 0 := by simp [TwoWire.available, hrx]
      rw [h0]
      simp [AtlasRGB.receiveLoop, h0]
    | cons b rest =>
      have ha : s.wire.available = rest.length + 1 := by simp [TwoWire.available, hrx]
      have hn : rest.length ≤ n := by omega
      rw [ha]
      simp only [AtlasRGB.receiveLoop, ha, Nat.add_one_ne_zero, if_false, TwoWire.read, hrx]
      split
      · rfl
      · rw [ih _ (by simpa [TwoWire.available] using hn)]
        simp [TwoWire.available]

/-- One receive cycle on a terminated reply: when the command buffer does not hold
"sleep" and the device answers the request with the status byte `c`, the bytes `p`
(none zero) and a zero byte, within the 52 bytes asked for. -/
theorem receiveResponse_terminated (s : AtlasRGB) (c : Nat) (p : List Nat)
    (more : List (List Nat)) (hcmd : s.inputString ≠ "sleep")
    (hreply : s.wire.replies = (c :: p ++ [0]) :: more)
    (hbytes : ∀ b ∈ p, b ≠ 0 ∧ b < 256) (hlen : p.length ≤ 50) :
    s.receiveResponse =
      (CharPtr.sensorString,
        { s with
          code := (c : Int)
          wire :=
            { rx := []
              replies := more
              trace := s.wire.trace ++
                [BusEvent.delay s.time, BusEvent.requestFrom s.address 52, BusEvent.read] ++
                List.replicate (p.length + 1) BusEvent.read }
          sensorString := pokeList s.sensorString s.i (p ++ [0])
          i := 0 }) := by
  have htake : (c :: p ++ [0]).take 52 = c :: (p ++ 0 :: []) := by
    apply List.take_of_length_le
    simp only [List.cons_append, List.length_cons, List.length_append, List.length_nil]
    omega
  simp only [AtlasRGB.receiveResponse, if_pos hcmd, TwoWire.requestFrom, TwoWire.emit, hreply,
    List.headD_cons, List.tail_cons, htake, TwoWire.read, TwoWire.available]
  rw [receiveLoop_terminated p [] _ _ hbytes rfl (by simp)]
  simp

/-- C8: protocol round trip. With the cursor at 0 and a command buffer that is not
"sleep" (it is empty after `sendCommand`), if the device answers the 52-byte
request with a status byte c, a payload p (no zero byte, at most 50 bytes) and a
zero byte, then `receiveResponse` returns the response buffer, stores c as the
response code, leaves the buffer holding exactly p and a terminating zero (read as
a C string it is p, and the bytes behind the terminator are as before) and
leaves the cursor at 0. -/
theorem receiveResponse_round_trip (s : AtlasRGB) (c : Nat) (p : List Nat)
    (more : List (List Nat)) (hi : s.i = 0) (hcmd : s.inputString ≠ "sleep")
    (hreply : s.wire.replies = (c :: p ++ [0]) :: more)
    (hbytes : ∀ b ∈ p, b ≠ 0 ∧ b < 256) (hlen : p.length ≤ 50) :
    s.receiveResponse.1 = CharPtr.sensorString ∧
    s.receiveResponse.2.code = (c : Int) ∧
    (∀ k (hk : k < p.length), s.receiveResponse.2.sensorString k = p.get ⟨k, hk⟩) ∧
    s.receiveResponse.2.sensorString p.length = 0 ∧
    (∀ j, p.length < j → s.receiveResponse.2.sensorString j = s.sensorString j) ∧
    (∀ n, p.length < n → s.receiveResponse.2.deref n s.receiveResponse.1 = p) ∧
    s.receiveResponse.2.i = 0 := by
  rw [receiveResponse_terminated s c p more hcmd hreply hbytes hlen]
  have hget : ∀ k (hk : k < p.length),
      pokeList s.sensorString s.i (p ++ [0]) k = p.get ⟨k, hk⟩ := by
    intro k hk
    have h := pokeList_at (p ++ [0]) s.sensorString 0 k (by simp; omega)
    rw [hi]
    rw [Nat.zero_add] at h
    rw [h]
    simp [List.getElem_append_left, hk]
  have hzero : pokeList s.sensorString s.i (p ++ [0]) p.length = 0 := by
    have h := pokeList_at (p ++ [0]) s.sensorString 0 p.length (by simp)
    rw [hi]
    rw [Nat.zero_add] at h
    rw [h]
    simp
  refine ⟨rfl, rfl, hget, hzero, ?_, ?_, rfl⟩
  · intro j hj
    show pokeList s.sensorString s.i (p ++ [0]) j = s.sensorString j
    rw [hi]
    exact pokeList_above _ _ _ _ (by simp; omega)
  · intro n hn
    show AtlasRGB.cstr (pokeList s.sensorString s.i (p ++ [0])) n 0 = p
    apply cstr_of_terminated _ p n 0 hn (fun b hb => (hbytes b hb).1)
    · intro k hk
      rw [Nat.zero_add]
      exact hget k hk
    · rw [Nat.zero_add]
      exact hzero

/-- C8 at the spec's example: after `start`, `singleMode` ("R") and `sendCommand`,
the device answers status byte 1, "12.3,45.6,78.9" and a zero byte; the response
code is 1 (Success) and the response buffer reads "12.3,45.6,78.9". -/
theorem receiveResponse_round_trip_witness :
    ((AtlasRGB.blank.start
        (TwoWire.scripted [1 :: asciiBytes "12.3,45.6,78.9" ++ [0]])).singleMode.sendCommand).i
      = 0 ∧
    ((AtlasRGB.blank.start
        (TwoWire.scripted [1 :: asciiBytes "12.3,45.6,78.9" ++ [0]])).singleMode.sendCommand
      ).inputString ≠ "sleep" ∧
    (asciiBytes "12.3,45.6,78.9").length ≤ 50 ∧
    ((AtlasRGB.blank.start
        (TwoWire.scripted [1 :: asciiBytes "12.3,45.6,78.9" ++ [0]])).singleMode.sendCommand
      ).receiveResponse.2.code = 1 ∧
    ((AtlasRGB.blank.start
        (TwoWire.scripted [1 :: asciiBytes "12.3,45.6,78.9" ++ [0]])).singleMode.sendCommand
      ).receiveResponse.2.deref 52 CharPtr.sensorString = asciiBytes "12.3,45.6,78.9" ∧
    ((AtlasRGB.blank.start
        (TwoWire.scripted [1 :: asciiBytes "12.3,45.6,78.9" ++ [0]])).singleMode.sendCommand
      ).receiveResponse.2.i = 0 := by
  have h := receiveResponse_round_trip
    ((AtlasRGB.blank.start
        (TwoWire.scripted [1 :: asciiBytes "12.3,45.6,78.9" ++ [0]])).singleMode.sendCommand)
    1 (asciiBytes "12.3,45.6,78.9") [] rfl (by decide) rfl (by decide) (by decide)
  refine ⟨rfl, by decide, by decide, h.2.1, ?_, h.2.2.2.2.2.2⟩
  have h2 := h.2.2.2.2.2.1 52 (by decide)
  rw [h.1] at h2
  exact h2

/-! ## The sleep command -/

/-- The decode loop adds nothing but reads to the trace. -/
theorem receiveLoop_trace :
    ∀ (n : Nat) (s : AtlasRGB),
      ∃ k, (AtlasRGB.receiveLoop n s).wire.trace =
        s.wire.trace ++ List.replicate k BusEvent.read := by
  intro n
  induction n with
  | zero => intro s; exact ⟨0, by simp [AtlasRGB.receiveLoop]⟩
  | succ n ih =>
    intro s
    cases hrx : s.wire.rx with
    | nil => exact ⟨0, by simp [AtlasRGB.receiveLoop, TwoWire.available, hrx]⟩
    | cons b rest =>
      simp only [AtlasRGB.receiveLoop, TwoWire.available, hrx, List.length_cons,
        Nat.add_one_ne_zero, if_false, TwoWire.read]
      split
      · exact ⟨1, by simp⟩
      · obtain ⟨k, hk⟩ := ih
          { s with
            wire := { s.wire with rx := rest, trace := s.wire.trace ++ [BusEvent.read] }
            sensorString := Function.update s.sensorString s.i ((b : Int) % 256).toNat
            i := s.i + 1 }
        refine ⟨k + 1, ?_⟩
        rw [hk]
        simp [List.replicate_succ]

/-- C9: the code on the sleep command. `sleepSensor()` puts "Sleep" in the command
buffer, the guard of `receiveResponse` compares with "sleep", and `sendCommand()`
has emptied the buffer before `receiveResponse()` runs: for every driver state the
cycle issues the delay, the 52-byte request and at least one read, and returns the
response buffer, not the empty string; so does `run()`, and so does
`receiveResponse()` straight after `sleepSensor()`. -/
theorem sleep_cycle_still_reads (s : AtlasRGB) :
    s.sleepSensor.inputString = "Sleep" ∧
    s.sleepSensor.sendCommand.receiveResponse.1 = CharPtr.sensorString ∧
    (∃ k, s.sleepSensor.sendCommand.receiveResponse.2.wire.trace =
      s.wire.trace ++
        [BusEvent.beginTransmission s.address, BusEvent.write "Sleep",
          BusEvent.endTransmission, BusEvent.delay s.time,
          BusEvent.requestFrom s.address 52, BusEvent.read] ++
        List.replicate k BusEvent.read) ∧
    s.sleepSensor.run = (CharPtr.sensorString, s.sleepSensor.sendCommand.receiveResponse.2) ∧
    s.sleepSensor.receiveResponse.1 = CharPtr.sensorString := by
  have hne : ("" : String) ≠ "sleep" := by decide
  have hne2 : ("Sleep" : String) ≠ "sleep" := by decide
  have hne3 : ("Sleep" : String) ≠ "" := by decide
  refine ⟨rfl, ?_, ?_, ?_, ?_⟩
  · simp only [AtlasRGB.receiveResponse, AtlasRGB.sendCommand, if_pos hne]
  · simp only [AtlasRGB.receiveResponse, AtlasRGB.sendCommand, AtlasRGB.sleepSensor,
      if_pos hne]
    obtain ⟨k, hk⟩ := receiveLoop_trace
      (((s.wire.emit (BusEvent.beginTransmission s.address)).emit
          (BusEvent.write "Sleep")).emit BusEvent.endTransmission
          |>.emit (BusEvent.delay s.time) |>.requestFrom s.address 52 |>.read).2.available
      { s with
        inputString := ""
        wire := (((s.wire.emit (BusEvent.beginTransmission s.address)).emit
          (BusEvent.write "Sleep")).emit BusEvent.endTransmission
          |>.emit (BusEvent.delay s.time) |>.requestFrom s.address 52 |>.read).2
        code := (((s.wire.emit (BusEvent.beginTransmission s.address)).emit
          (BusEvent.write "Sleep")).emit BusEvent.endTransmission
          |>.emit (BusEvent.delay s.time) |>.requestFrom s.address 52 |>.read).1 }
    refine ⟨k, ?_⟩
    rw [hk]
    simp only [TwoWire.read, TwoWire.requestFrom, TwoWire.emit]
    split <;> simp
  · simp only [AtlasRGB.run, AtlasRGB.sleepSensor, if_pos hne3]
  · simp only [AtlasRGB.receiveResponse, AtlasRGB.sleepSensor, if_pos hne2]

/-- The sleep cycle on a device that has three bytes to give (status 1, "A", zero):
the trace shows the delay, the request and three reads, and the result reads "A". -/
theorem sleep_cycle_example :
    ((AtlasRGB.blank.start (TwoWire.scripted [[1, 65, 0]])).sleepSensor.sendCommand
      ).receiveResponse.2.wire.trace =
      [BusEvent.beginTransmission 112, BusEvent.write "Sleep", BusEvent.endTransmission,
        BusEvent.delay 300, BusEvent.requestFrom 112 52, BusEvent.read, BusEvent.read,
        BusEvent.read] ∧
    ((AtlasRGB.blank.start (TwoWire.scripted [[1, 65, 0]])).sleepSensor.sendCommand
      ).receiveResponse.2.deref 52
      ((AtlasRGB.blank.start (TwoWire.scripted [[1, 65, 0]])).sleepSensor.sendCommand
        ).receiveResponse.1 = [65] := by
  decide

/-! ## Bursts of measurements -/

/-- The method `takeMeasurement` works on the singleton only: any number of calls leaves the
burst bookkeeping as it was. -/
theorem takeMeasurement_iterate_base (k : Nat) (x : ColorSensor) :
    (ColorSensor.takeMeasurement^[k] x).base = x.base := by
  induction k with
  | zero => rfl
  | succ k ih =>
    rw [Function.iterate_succ_apply']
    exact ih

/-- A measurement followed by `incrementBurst`, k times over, counts like k calls of
`incrementBurst`. -/
theorem measure_and_count_base (w k : Nat) (x : ColorSensor) :
    ((fun y : ColorSensor => y.takeMeasurement.incrementBurst w)^[k] x).base =
      (SensorDriver.incrementBurst w)^[k] x.base := by
  induction k with
  | zero => rfl
  | succ k ih =>
    rw [Function.iterate_succ_apply', Function.iterate_succ_apply', ← ih]
    rfl

/-- C10, as stated, fails at k = 10: with burst length 10 (the default of
`getDefaultsCommon`) and a device that answers every request with status 1 and
"12.3,45.6,78.9", after `setup()`, `initializeBurst()` and ten calls of
`takeMeasurement`, `burstCompleted()` is false and the counter is still 0. -/
theorem takeMeasurement_burst_counterexample :
    (getDefaultsCommon
      { sensor_type := 0, slot := 0, sensor_burst := 0, warmup := 0, tag := "",
        column_prefix := "", padding := "" }).sensor_burst = 10 ∧
    (ColorSensor.takeMeasurement^[10]
      (ColorSensor.setup
        { base := { burstCount := 0, burstLength := 10 }, rgb := AtlasRGB.blank }
        (TwoWire.scripted
          (List.replicate 11 (1 :: asciiBytes "12.3,45.6,78.9" ++ [0])))).initializeBurst
      ).burstCompleted = false ∧
    (ColorSensor.takeMeasurement^[10]
      (ColorSensor.setup
        { base := { burstCount := 0, burstLength := 10 }, rgb := AtlasRGB.blank }
        (TwoWire.scripted
          (List.replicate 11 (1 :: asciiBytes "12.3,45.6,78.9" ++ [0])))).initializeBurst
      ).base.burstCount = 0 := by
  refine ⟨rfl, ?_, ?_⟩
  · rw [ColorSensor.burstCompleted, takeMeasurement_iterate_base]
    decide
  · rw [takeMeasurement_iterate_base]
    rfl

/-- C10 (amended): with the burst length configured to 10, after `setup()` and
`initializeBurst()`, `takeMeasurement` alone never advances the counter, so
`burstCompleted()` is false after any number k of calls; when every
`takeMeasurement` is followed by the caller's `incrementBurst()`, `burstCompleted()`
is true after the k-th pair exactly when k = 10 (k within the counter's range),
for every sequence of device replies. -/
theorem burst_needs_incrementBurst (w k : Nat) (x : ColorSensor) (wire : TwoWire)
    (cfg : common_config_sensor)
    (hlen : (x.base.burstLength : Int) = (getDefaultsCommon cfg).sensor_burst) :
    (ColorSensor.takeMeasurement^[k] (x.setup wire).initializeBurst).burstCompleted = false ∧
    (k < 2 ^ w →
      (((fun y : ColorSensor => y.takeMeasurement.incrementBurst w)^[k]
          (x.setup wire).initializeBurst).burstCompleted = true ↔ k = 10)) := by
  have h10 : x.base.burstLength = 10 := by
    have : (x.base.burstLength : Int) = 10 := hlen
    exact_mod_cast this
  constructor
  · rw [ColorSensor.burstCompleted, takeMeasurement_iterate_base]
    simp [ColorSensor.initializeBurst, ColorSensor.setup, SensorDriver.initializeBurst,
      SensorDriver.burstCompleted, h10]
  · intro hk
    rw [ColorSensor.burstCompleted, measure_and_count_base]
    have h := burst_iterate w k x.base
    have hb : ((x.setup wire).initializeBurst).base = x.base.initializeBurst := rfl
    rw [hb]
    simp only [SensorDriver.burstCompleted, beq_iff_eq, h.1, h.2, Nat.mod_eq_of_lt hk, h10]

/-- C10 (amended) with a 16-bit counter, burst length 10 and a silent device: ten
measurements alone leave `burstCompleted()` false; ten measurements each followed by
`incrementBurst()` make it true. -/
theorem burst_needs_incrementBurst_witness :
    (ColorSensor.takeMeasurement^[10]
      (ColorSensor.setup
        { base := { burstCount := 3, burstLength := 10 }, rgb := AtlasRGB.blank }
        TwoWire.silent).initializeBurst).burstCompleted = false ∧
    ((fun y : ColorSensor => y.takeMeasurement.incrementBurst 16)^[10]
      (ColorSensor.setup
        { base := { burstCount := 3, burstLength := 10 }, rgb := AtlasRGB.blank }
        TwoWire.silent).initializeBurst).burstCompleted = true := by
  have h := burst_needs_incrementBurst 16 10
    { base := { burstCount := 3, burstLength := 10 }, rgb := AtlasRGB.blank } TwoWire.silent
    { sensor_type := 0, slot := 0, sensor_burst := 0, warmup := 0, tag := "",
      column_prefix := "", padding := "" } rfl
  exact ⟨h.1, (h.2 (by decide)).mpr rfl⟩

/-! ## Sending and the `run` entry point -/

/-- C11: for every command-buffer content, `sendCommand()` performs exactly one bus
transaction (begin-transmission to the driver's address, a write of the buffer's
bytes, end-transmission) and no read; afterwards the command buffer is empty and
the response buffer, response code, address, settle delay, cursor and the
transport's pending bytes are unchanged. -/
theorem sendCommand_effect (s : AtlasRGB) :
    s.sendCommand.wire.trace =
      s.wire.trace ++
        [BusEvent.beginTransmission s.address, BusEvent.write s.inputString,
          BusEvent.endTransmission] ∧
    s.sendCommand.inputString = "" ∧
    s.sendCommand.sensorString = s.sensorString ∧
    s.sendCommand.code = s.code ∧
    s.sendCommand.address = s.address ∧
    s.sendCommand.time = s.time ∧
    s.sendCommand.i = s.i ∧
    s.sendCommand.wire.rx = s.wire.rx ∧
    s.sendCommand.wire.replies = s.wire.replies := by
  simp [AtlasRGB.sendCommand, TwoWire.emit]

/-- A receive cycle with a command buffer that is not "sleep" adds the delay, the
52-byte request and one or more reads to the trace, nothing else, and returns the
response buffer. -/
theorem receiveResponse_trace (s : AtlasRGB) (hcmd : s.inputString ≠ "sleep") :
    s.receiveResponse.1 = CharPtr.sensorString ∧
    ∃ k, s.receiveResponse.2.wire.trace =
      s.wire.trace ++
        [BusEvent.delay s.time, BusEvent.requestFrom s.address 52, BusEvent.read] ++
        List.replicate k BusEvent.read := by
  simp only [AtlasRGB.receiveResponse, if_pos hcmd, true_and]
  obtain ⟨k, hk⟩ := receiveLoop_trace
    ((s.wire.emit (BusEvent.delay s.time)).requestFrom s.address 52).read.2.available
    { s with
      wire := ((s.wire.emit (BusEvent.delay s.time)).requestFrom s.address 52).read.2
      code := ((s.wire.emit (BusEvent.delay s.time)).requestFrom s.address 52).read.1 }
  refine ⟨k, ?_⟩
  rw [hk]
  simp only [TwoWire.read, TwoWire.requestFrom, TwoWire.emit]
  split <;> simp

/-- C12: `run()` sends if and only if a command is pending and always makes the
receive step. With a non-empty command buffer it is one `sendCommand` transaction
followed by one receive cycle; with an empty one it writes nothing to the bus and
still makes one receive cycle (delay, 52-byte request, decode); either way it
returns the response buffer. -/
theorem run_sends_iff_pending (s : AtlasRGB) :
    s.run.1 = CharPtr.sensorString ∧
    (s.inputString ≠ "" →
      s.run.2 = s.sendCommand.receiveResponse.2 ∧
      ∃ k, s.run.2.wire.trace =
        s.wire.trace ++
          [BusEvent.beginTransmission s.address, BusEvent.write s.inputString,
            BusEvent.endTransmission, BusEvent.delay s.time,
            BusEvent.requestFrom s.address 52, BusEvent.read] ++
          List.replicate k BusEvent.read) ∧
    (s.inputString = "" →
      s.run.2 = s.receiveResponse.2 ∧
      ∃ k, s.run.2.wire.trace =
        s.wire.trace ++
          [BusEvent.delay s.time, BusEvent.requestFrom s.address 52, BusEvent.read] ++
          List.replicate k BusEvent.read) := by
  have hne : ("" : String) ≠ "sleep" := by decide
  refine ⟨rfl, ?_, ?_⟩
  · intro h
    have e : s.run.2 = s.sendCommand.receiveResponse.2 := by
      simp only [AtlasRGB.run, if_pos h]
    refine ⟨e, ?_⟩
    obtain ⟨k, hk⟩ := (receiveResponse_trace s.sendCommand hne).2
    refine ⟨k, ?_⟩
    rw [e, hk]
    simp [AtlasRGB.sendCommand, TwoWire.emit]
  · intro h
    have h2 : ¬ s.inputString ≠ "" := fun hn => hn h
    have e : s.run.2 = s.receiveResponse.2 := by
      simp only [AtlasRGB.run, if_neg h2]
    refine ⟨e, ?_⟩
    have hcmd : s.inputString ≠ "sleep" := by rw [h]; exact hne
    obtain ⟨k, hk⟩ := (receiveResponse_trace s hcmd).2
    exact ⟨k, by rw [e, hk]⟩

/-- C12 on a transport with nothing to deliver: with "R" pending the trace is the
transaction, the delay, the request and one read; with nothing pending it is the
delay, the request and one read, and no write. -/
theorem run_sends_iff_pending_witness :
    (AtlasRGB.blank.start TwoWire.silent).singleMode.inputString ≠ "" ∧
    (AtlasRGB.blank.start TwoWire.silent).inputString = "" ∧
    (AtlasRGB.blank.start TwoWire.silent).singleMode.run.2.wire.trace =
      [BusEvent.beginTransmission 112, BusEvent.write "R", BusEvent.endTransmission,
        BusEvent.delay 300, BusEvent.requestFrom 112 52, BusEvent.read] ∧
    (AtlasRGB.blank.start TwoWire.silent).run.2.wire.trace =
      [BusEvent.delay 300, BusEvent.requestFrom 112 52, BusEvent.read] ∧
    (AtlasRGB.blank.start TwoWire.silent).singleMode.run.2 =
      (AtlasRGB.blank.start TwoWire.silent).singleMode.sendCommand.receiveResponse.2 ∧
    (AtlasRGB.blank.start TwoWire.silent).run.2 =
      (AtlasRGB.blank.start TwoWire.silent).receiveResponse.2 :=
  ⟨by decide, rfl, by decide, by decide,
    ((run_sends_iff_pending (AtlasRGB.blank.start TwoWire.silent).singleMode).2.1
      (by decide)).1,
    ((run_sends_iff_pending (AtlasRGB.blank.start TwoWire.silent)).2.2 rfl).1⟩

/-! ## Validation failures -/

/-- A quotient by a power of two, rescaled to a larger power of two. -/
theorem rescale_pow2 (m e t : Nat) (h : e ≤ t) :
    (m : ℚ) / 2 ^ e = ((m * 2 ^ (t - e) : Nat) : ℚ) / 2 ^ t := by
  have ht : (2 : ℚ) ^ t = 2 ^ e * 2 ^ (t - e) := by
    rw [← pow_add]
    congr 1
    omega
  rw [ht]
  push_cast
  field_simp
  ring

/-- A 24-digit significand over `2 ^ e` stays below `2 ^ 24 / 2 ^ t` for `t ≤ e`. -/
theorem small_pow2 (m e t : Nat) (hm : m < 2 ^ 24) (h : t ≤ e) :
    (m : ℚ) / 2 ^ e < 2 ^ 24 / 2 ^ t := by
  have h1 : (2 : ℚ) ^ t ≤ 2 ^ e := pow_le_pow_right₀ (by norm_num) h
  have h2 : (m : ℚ) < 2 ^ 24 := by exact_mod_cast hm
  have h3 : (0 : ℚ) < 2 ^ t := by positivity
  have h4 : (0 : ℚ) < 2 ^ e := by positivity
  rw [div_lt_div_iff₀ h4 h3]
  calc (m : ℚ) * 2 ^ t ≤ m * 2 ^ e := by
        apply mul_le_mul_of_nonneg_left h1
        positivity
    _ < 2 ^ 24 * 2 ^ e := by
        apply mul_lt_mul_of_pos_right h2 h4

/-- On the non-negative values of type `float` the two `double` constants cut out
exactly the values of the closed interval [0.01, 4.99]: no `float` lies between
1/100 and the constant `0.01`, nor between 499/100 and the constant `4.99`. -/
theorem gamma_range_binary32 (q : ℚ) (hq : isBinary32 q) (h0 : ¬ q < 0) :
    (AtlasRGB.gammaMin ≤ q ∧ q ≤ AtlasRGB.gammaMax) ↔ (1 / 100 ≤ q ∧ q ≤ 499 / 100) := by
  rw [gammaMin_eq.1, gammaMax_eq]
  obtain ⟨m, e, hm, hme⟩ := hq
  rw [abs_of_nonneg (not_lt.mp h0)] at hme
  rcases hme with hme | hme
  · -- a whole number
    have hN : q = ((m * 2 ^ e : Nat) : ℚ) := by rw [hme]; push_cast; ring
    generalize m * 2 ^ e = N at hN
    rw [hN]
    constructor
    · rintro ⟨h1, h2⟩
      have h3 : 1 ≤ N := by
        rcases Nat.eq_zero_or_pos N with h | h
        · rw [h] at h1; norm_num at h1
        · exact h
      have h4 : N ≤ 4 := by
        by_contra hc
        have : (5 : ℚ) ≤ N := by exact_mod_cast (by omega : 5 ≤ N)
        linarith [show (2809120267572347 / 2 ^ 49 : ℚ) < 5 by norm_num]
      have h3q : (1 : ℚ) ≤ N := by exact_mod_cast h3
      have h4q : (N : ℚ) ≤ 4 := by exact_mod_cast h4
      constructor <;> linarith
    · rintro ⟨h1, h2⟩
      have h3 : 1 ≤ N := by
        rcases Nat.eq_zero_or_pos N with h | h
        · rw [h] at h1; norm_num at h1
        · exact h
      have h4 : N ≤ 4 := by
        by_contra hc
        have : (5 : ℚ) ≤ N := by exact_mod_cast (by omega : 5 ≤ N)
        linarith
      have h3q : (1 : ℚ) ≤ N := by exact_mod_cast h3
      have h4q : (N : ℚ) ≤ 4 := by exact_mod_cast h4
      constructor
      · linarith [show (5764607523034235 / 2 ^ 59 : ℚ) < 1 by norm_num]
      · linarith [show (4 : ℚ) < 2809120267572347 / 2 ^ 49 by norm_num]
  · constructor
    · rintro ⟨h1, h2⟩
      refine ⟨by linarith [show (1 / 100 : ℚ) < 5764607523034235 / 2 ^ 59 by norm_num], ?_⟩
      by_cases he : e ≤ 21
      · rw [hme, rescale_pow2 m e 21 he] at h2 ⊢
        generalize m * 2 ^ (21 - e) = N at h2 ⊢
        have h3 : N ≤ 10464788 := by
          by_contra hc
          have : (10464789 : ℚ) ≤ N := by exact_mod_cast (by omega : 10464789 ≤ N)
          have : (10464789 : ℚ) / 2 ^ 21 ≤ N / 2 ^ 21 := by
            apply div_le_div_of_nonneg_right this (by positivity)
          linarith [show (2809120267572347 / 2 ^ 49 : ℚ) < 10464789 / 2 ^ 21 by norm_num]
        have h3q : (N : ℚ) ≤ 10464788 := by exact_mod_cast h3
        have : (N : ℚ) / 2 ^ 21 ≤ 10464788 / 2 ^ 21 :=
          div_le_div_of_nonneg_right h3q (by positivity)
        linarith [show (10464788 / 2 ^ 21 : ℚ) ≤ 499 / 100 by norm_num]
      · have := small_pow2 m e 22 hm (by omega)
        rw [hme]
        linarith [show ((2:ℚ) ^ 24 / 2 ^ 22) ≤ 499 / 100 by norm_num]
    · rintro ⟨h1, h2⟩
      refine ⟨?_, by linarith [show (499 / 100 : ℚ) < 2809120267572347 / 2 ^ 49 by norm_num]⟩
      by_cases he : e ≤ 30
      · rw [hme, rescale_pow2 m e 30 he] at h1 ⊢
        generalize m * 2 ^ (30 - e) = N at h1 ⊢
        have h3 : 10737419 ≤ N := by
          by_contra hc
          have : (N : ℚ) ≤ 10737418 := by exact_mod_cast (by omega : N ≤ 10737418)
          have : (N : ℚ) / 2 ^ 30 ≤ 10737418 / 2 ^ 30 :=
            div_le_div_of_nonneg_right this (by positivity)
          linarith [show (10737418 / 2 ^ 30 : ℚ) < 1 / 100 by norm_num]
        have h3q : (10737419 : ℚ) ≤ N := by exact_mod_cast h3
        have : (10737419 : ℚ) / 2 ^ 30 ≤ N / 2 ^ 30 :=
          div_le_div_of_nonneg_right h3q (by positivity)
        linarith [show (5764607523034235 / 2 ^ 59 : ℚ) ≤ 10737419 / 2 ^ 30 by norm_num]
      · exfalso
        have := small_pow2 m e 31 hm (by omega)
        rw [hme] at h1
        linarith [show ((2:ℚ) ^ 24 / 2 ^ 31) < 1 / 100 by norm_num]

/-- C13: a validation failure is atomic. Whenever `setLEDBrightness`, `setBaudRate`
or `gammaCorrection` returns -1, the driver afterwards (command buffer, every other
member, transport and its trace) is the driver before the call; and -1 is returned
only for an argument that is neither negative nor accepted: not in 0..100, not one
of the eight baud rates, not between the two constants of `gammaCorrection`, which
for a value of type `float` means not in the closed interval [0.01, 4.99]. -/
theorem validation_failure_atomic (s : AtlasRGB) (v : Int) (powerSaving : Bool)
    (f : CFloat) :
    ((s.setLEDBrightness v powerSaving).1 = -1 →
      (s.setLEDBrightness v powerSaving).2 = s ∧ ¬ v < 0 ∧ ¬ (0 ≤ v ∧ v ≤ 100)) ∧
    ((s.setBaudRate v).1 = -1 →
      (s.setBaudRate v).2 = s ∧ ¬ v < 0 ∧
      ¬ (v = 300 ∨ v = 1200 ∨ v = 2400 ∨ v = 9600 ∨ v = 19200 ∨ v = 38400 ∨ v = 57600 ∨
        v = 115200)) ∧
    ((s.gammaCorrection f).1 = -1 →
      (s.gammaCorrection f).2 = s ∧ f.lt 0 = false ∧
      ¬ (f.ge AtlasRGB.gammaMin = true ∧ f.le AtlasRGB.gammaMax = true) ∧
      ∀ q, f = CFloat.finite q → isBinary32 q → ¬ q < 0 ∧ ¬ (1 / 100 ≤ q ∧ q ≤ 499 / 100)) := by
  refine ⟨?_, ?_, ?_⟩
  · intro h
    by_cases h1 : v < 0
    · rw [setLEDBrightness_neg s v powerSaving h1] at h
      simp at h
    · by_cases h2 : 0 ≤ v ∧ v ≤ 100
      · have h3 : v ≥ 0 ∧ v ≤ 100 := h2
        simp only [AtlasRGB.setLEDBrightness, if_neg h1, if_pos h3] at h
        cases powerSaving <;> simp at h
      · refine ⟨?_, h1, h2⟩
        have h3 : ¬ (v ≥ 0 ∧ v ≤ 100) := h2
        simp only [AtlasRGB.setLEDBrightness, if_neg h1, if_neg h3]
  · intro h
    by_cases h1 : v < 0
    · rw [setBaudRate_neg s v h1] at h
      simp at h
    · by_cases h2 : v ∈ AtlasRGB.baudRates
      · simp only [AtlasRGB.setBaudRate, if_neg h1, if_pos h2] at h
        simp at h
      · refine ⟨?_, h1, ?_⟩
        · simp only [AtlasRGB.setBaudRate, if_neg h1, if_neg h2]
        · simpa only [AtlasRGB.baudRates, List.mem_cons, List.mem_singleton,
            List.mem_nil_iff, or_false] using h2
  · intro h
    by_cases h1 : f.lt 0 = true
    · rw [gammaCorrection_neg s f h1] at h
      simp at h
    · by_cases h2 : f.ge AtlasRGB.gammaMin = true ∧ f.le AtlasRGB.gammaMax = true
      · simp only [AtlasRGB.gammaCorrection, if_neg h1, if_pos h2] at h
        simp at h
      · refine ⟨?_, by simpa using h1, h2, ?_⟩
        · simp only [AtlasRGB.gammaCorrection, if_neg h1, if_neg h2]
        · intro q hf hq
          subst hf
          have h0 : ¬ q < 0 := by simpa [CFloat.lt] using h1
          refine ⟨h0, ?_⟩
          rw [← gamma_range_binary32 q hq h0]
          simpa [CFloat.ge, CFloat.le] using h2

/-- C13 over a pending "R": brightness 101, baud rate 9601 and gamma 5.0 are each
answered with -1, and the driver still holds "R" and an empty trace. -/
theorem validation_failure_atomic_witness :
    (AtlasRGB.blank.singleMode.setLEDBrightness 101 false).1 = -1 ∧
    (AtlasRGB.blank.singleMode.setLEDBrightness 101 false).2.inputString = "R" ∧
    (AtlasRGB.blank.singleMode.setLEDBrightness 101 false).2.wire.trace = [] ∧
    (AtlasRGB.blank.singleMode.setBaudRate 9601).1 = -1 ∧
    (AtlasRGB.blank.singleMode.setBaudRate 9601).2.inputString = "R" ∧
    (AtlasRGB.blank.singleMode.gammaCorrection (CFloat.finite 5)).1 = -1 ∧
    (AtlasRGB.blank.singleMode.gammaCorrection (CFloat.finite 5)).2.inputString = "R" ∧
    isBinary32 5 ∧ ¬ ((1 : ℚ) / 100 ≤ 5 ∧ (5 : ℚ) ≤ 499 / 100) := by
  have h := validation_failure_atomic AtlasRGB.blank.singleMode 101 false (CFloat.finite 5)
  have h2 := (validation_failure_atomic AtlasRGB.blank.singleMode 9601 false
    (CFloat.finite 5)).2.1
  have e1 : (AtlasRGB.blank.singleMode.setLEDBrightness 101 false).1 = -1 := by decide
  have e2 : (AtlasRGB.blank.singleMode.setBaudRate 9601).1 = -1 := by decide
  have e3 : (AtlasRGB.blank.singleMode.gammaCorrection (CFloat.finite 5)).1 = -1 := by
    rw [gammaCorrection_finite, gammaMin_eq.1, gammaMax_eq]
    norm_num
  have hb : isBinary32 5 := ⟨5, 0, by norm_num, Or.inl (by norm_num)⟩
  refine ⟨e1, ?_, ?_, e2, ?_, e3, ?_, hb, ?_⟩
  · rw [(h.1 e1).1]; rfl
  · rw [(h.1 e1).1]; rfl
  · rw [(h2 e2).1]; rfl
  · rw [(h.2.2 e3).1]; rfl
  · exact ((h.2.2 e3).2.2.2 5 rfl hb).2

/-! ## The indicator LED -/

/-- C14: the code on the indicator LED. `setIndicatorLED(true, power)` writes the
query "iL,?" and `setIndicatorLED(false, power)` writes "iL,1" or "iL,0": the
opposite of the source's own convention (a false first argument is the status
query) and of the claim. -/
theorem setIndicatorLED_polarity (s : AtlasRGB) (power : Bool) :
    (s.setIndicatorLED true power).inputString = "iL,?" ∧
    (s.setIndicatorLED false power).inputString = (if power then "iL,1" else "iL,0") ∧
    (s.setIndicatorLED false power).inputString ≠ "iL,?" := by
  cases power <;> simp [AtlasRGB.setIndicatorLED]

/-! ## Where the measurement ends up -/

/-- Reading the response array as a C string after the bytes `p` (none zero) and a
zero byte were stored from index 0 on gives `p`. -/
theorem cstr_pokeList (buf : Nat → Nat) (p : List Nat) (n : Nat) (hn : p.length < n)
    (hnz : ∀ b ∈ p, b ≠ 0) :
    AtlasRGB.cstr (pokeList buf 0 (p ++ [0])) n 0 = p := by
  apply cstr_of_terminated _ p n 0 hn hnz
  · intro k hk
    rw [pokeList_at (p ++ [0]) buf 0 k (by simp; omega)]
    simp [List.getElem_append_left, hk]
  · rw [pokeList_at (p ++ [0]) buf 0 p.length (by simp)]
    simp

/-- C15, as stated, fails: the device answers the "R" command with status 1,
"12.3,45.6,78.9" and a zero byte, the caller passes a zeroed buffer, and after
`takeMeasurement(buffer)` the caller's buffer still reads as the empty string; the
payload is in the driver's own response buffer. -/
theorem takeMeasurement_buffer_counterexample :
    AtlasRGB.cstr
      ((AtlasRGB.blank.start
          (TwoWire.scripted [1 :: asciiBytes "12.3,45.6,78.9" ++ [0]])).takeMeasurementInto
        (fun _ => 0)).1 52 0 = [] ∧
    asciiBytes "12.3,45.6,78.9" ≠ [] ∧
    ((AtlasRGB.blank.start
          (TwoWire.scripted [1 :: asciiBytes "12.3,45.6,78.9" ++ [0]])).takeMeasurementInto
        (fun _ => 0)).2.deref 52 CharPtr.sensorString = asciiBytes "12.3,45.6,78.9" := by
  decide

/-- C15 (amended): `takeMeasurement(buffer)` never writes the caller's buffer. When
the cursor is 0 and the device answers the single-read command with status byte 1,
a payload p (no zero byte, at most 50 bytes) and a zero byte, the caller's buffer
is as before the call, the response code is 1, and the decoded payload p is in
the driver's own response buffer. -/
theorem takeMeasurement_keeps_payload_inside (s : AtlasRGB) (data : Nat → Nat)
    (p : List Nat) (more : List (List Nat)) (hi : s.i = 0)
    (hreply : s.wire.replies = (1 :: p ++ [0]) :: more)
    (hbytes : ∀ b ∈ p, b ≠ 0 ∧ b < 256) (hlen : p.length ≤ 50) :
    (s.takeMeasurementInto data).1 = data ∧
    (s.takeMeasurementInto data).2.code = 1 ∧
    (s.takeMeasurementInto data).2.i = 0 ∧
    ∀ n, p.length < n → (s.takeMeasurementInto data).2.deref n CharPtr.sensorString = p := by
  have hne : s.singleMode.sendCommand.inputString ≠ "sleep" := by
    show ("" : String) ≠ "sleep"
    decide
  have hrep : s.singleMode.sendCommand.wire.replies = (1 :: p ++ [0]) :: more := hreply
  have h := receiveResponse_terminated s.singleMode.sendCommand 1 p more hne hrep hbytes hlen
  have e : (s.takeMeasurementInto data).2 = s.singleMode.sendCommand.receiveResponse.2 := rfl
  rw [e, h]
  refine ⟨rfl, rfl, rfl, ?_⟩
  intro n hn
  show AtlasRGB.cstr (pokeList s.sensorString s.i (p ++ [0])) n 0 = p
  rw [hi]
  exact cstr_pokeList _ p n hn (fun b hb => (hbytes b hb).1)

/-- C15 (amended) at the spec's example: the caller's zeroed buffer is untouched
and the driver's response buffer reads "12.3,45.6,78.9". -/
theorem takeMeasurement_keeps_payload_inside_witness :
    ((AtlasRGB.blank.start
          (TwoWire.scripted [1 :: asciiBytes "12.3,45.6,78.9" ++ [0]])).takeMeasurementInto
        (fun _ => 0)).1 5 = 0 ∧
    ((AtlasRGB.blank.start
          (TwoWire.scripted [1 :: asciiBytes "12.3,45.6,78.9" ++ [0]])).takeMeasurementInto
        (fun _ => 0)).2.code = 1 ∧
    ((AtlasRGB.blank.start
          (TwoWire.scripted [1 :: asciiBytes "12.3,45.6,78.9" ++ [0]])).takeMeasurementInto
        (fun _ => 0)).2.deref 52 CharPtr.sensorString = asciiBytes "12.3,45.6,78.9" := by
  have h := takeMeasurement_keeps_payload_inside
    (AtlasRGB.blank.start (TwoWire.scripted [1 :: asciiBytes "12.3,45.6,78.9" ++ [0]]))
    (fun _ => 0) (asciiBytes "12.3,45.6,78.9") [] rfl rfl (by decide) (by decide)
  refine ⟨?_, h.2.1, h.2.2.2 52 (by decide)⟩
  rw [h.1]

/-! ## The trace of a measurement -/

/-- The decode loop leaves the command buffer, the address, the settle delay, the
response code and the answers still to come as they were. -/
theorem receiveLoop_frame :
    ∀ (n : Nat) (s : AtlasRGB),
      (AtlasRGB.receiveLoop n s).inputString = s.inputString ∧
      (AtlasRGB.receiveLoop n s).address = s.address ∧
      (AtlasRGB.receiveLoop n s).time = s.time ∧
      (AtlasRGB.receiveLoop n s).code = s.code ∧
      (AtlasRGB.receiveLoop n s).wire.replies = s.wire.replies := by
  intro n
  induction n with
  | zero => intro s; simp [AtlasRGB.receiveLoop]
  | succ n ih =>
    intro s
    cases hrx : s.wire.rx with
    | nil => simp [AtlasRGB.receiveLoop, TwoWire.available, hrx]
    | cons b rest =>
      simp only [AtlasRGB.receiveLoop, TwoWire.available, hrx, List.length_cons,
        Nat.add_one_ne_zero, if_false, TwoWire.read]
      split
      · simp
      · exact ih _

/-- A receive cycle leaves the command buffer, the address and the settle delay as
they were. -/
theorem receiveResponse_frame (s : AtlasRGB) :
    s.receiveResponse.2.inputString = s.inputString ∧
    s.receiveResponse.2.address = s.address ∧
    s.receiveResponse.2.time = s.time := by
  by_cases h : s.inputString ≠ "sleep"
  · simp only [AtlasRGB.receiveResponse, if_pos h]
    exact ⟨(receiveLoop_frame _ _).1, (receiveLoop_frame _ _).2.1, (receiveLoop_frame _ _).2.2.1⟩
  · simp [AtlasRGB.receiveResponse, h]

/-- No call on the driver other than `start` changes the address or the settle
delay. -/
theorem step_address_time (s : AtlasRGB) (op : Op) :
    (s.step op).address = s.address ∧ (s.step op).time = s.time := by
  cases op with
  | setLEDBrightness v p =>
    show (s.setLEDBrightness v p).2.address = _ ∧ (s.setLEDBrightness v p).2.time = _
    unfold AtlasRGB.setLEDBrightness
    split_ifs <;> exact ⟨rfl, rfl⟩
  | setIndicatorLED st pw =>
    show (s.setIndicatorLED st pw).address = _ ∧ (s.setIndicatorLED st pw).time = _
    unfold AtlasRGB.setIndicatorLED
    split_ifs <;> exact ⟨rfl, rfl⟩
  | setBaudRate v =>
    show (s.setBaudRate v).2.address = _ ∧ (s.setBaudRate v).2.time = _
    unfold AtlasRGB.setBaudRate
    split_ifs <;> exact ⟨rfl, rfl⟩
  | gammaCorrection f =>
    show (s.gammaCorrection f).2.address = _ ∧ (s.gammaCorrection f).2.time = _
    unfold AtlasRGB.gammaCorrection
    split_ifs <;> exact ⟨rfl, rfl⟩
  | nameDevice v =>
    show (s.nameDevice v).address = _ ∧ (s.nameDevice v).time = _
    unfold AtlasRGB.nameDevice
    split_ifs <;> exact ⟨rfl, rfl⟩
  | deviceInformation => exact ⟨rfl, rfl⟩
  | sleepSensor => exact ⟨rfl, rfl⟩
  | factoryReset => exact ⟨rfl, rfl⟩
  | singleMode => exact ⟨rfl, rfl⟩
  | calibrateSensor => exact ⟨rfl, rfl⟩
  | findSensor => exact ⟨rfl, rfl⟩
  | getStatus => exact ⟨rfl, rfl⟩
  | sendCommand => exact ⟨rfl, rfl⟩
  | receiveResponse => exact (receiveResponse_frame s).2
  | run =>
    show s.run.2.address = _ ∧ s.run.2.time = _
    unfold AtlasRGB.run
    split_ifs
    · exact (receiveResponse_frame s.sendCommand).2
    · exact (receiveResponse_frame s).2
  | takeMeasurement => exact (receiveResponse_frame s.singleMode.sendCommand).2

/-- No sequence of calls changes the address or the settle delay. -/
theorem steps_address_time (ops : List Op) :
    ∀ s : AtlasRGB, (s.steps ops).address = s.address ∧ (s.steps ops).time = s.time := by
  induction ops with
  | nil => intro s; exact ⟨rfl, rfl⟩
  | cons op ops ih =>
    intro s
    have h1 := ih (s.step op)
    have h2 := step_address_time s op
    exact ⟨h1.1.trans h2.1, h1.2.trans h2.2⟩

/-- C16: after `setup()`, and after any further builder, send, receive, `run` or
`takeMeasurement` calls, the address is 112 (0x70) and the settle delay 300 ms,
since none of these calls changes either; and a `takeMeasurement` cycle adds
exactly this to the trace, whatever the command buffer held: the transaction
writing "R" to address 112, the delay of 300 ms, the request of 52 bytes from
address 112, then reads only. -/
theorem takeMeasurement_trace (s0 : AtlasRGB) (wire : TwoWire) (ops : List Op) :
    ((s0.setup wire).steps ops).address = 112 ∧
    ((s0.setup wire).steps ops).time = 300 ∧
    (∀ (s : AtlasRGB) (op : Op),
      (s.step op).address = s.address ∧ (s.step op).time = s.time) ∧
    ∃ k, ((s0.setup wire).steps ops).takeMeasurement.wire.trace =
      ((s0.setup wire).steps ops).wire.trace ++
        [BusEvent.beginTransmission 112, BusEvent.write "R", BusEvent.endTransmission,
          BusEvent.delay 300, BusEvent.requestFrom 112 52, BusEvent.read] ++
        List.replicate k BusEvent.read := by
  have hsetup : (s0.setup wire).address = 112 ∧ (s0.setup wire).time = 300 := by
    have h := receiveResponse_frame (s0.start wire).deviceInformation.sendCommand
    exact ⟨h.2.1, h.2.2⟩
  have hst := steps_address_time ops (s0.setup wire)
  have ha : ((s0.setup wire).steps ops).address = 112 := hst.1.trans hsetup.1
  have ht : ((s0.setup wire).steps ops).time = 300 := hst.2.trans hsetup.2
  refine ⟨ha, ht, step_address_time, ?_⟩
  have hne : ((s0.setup wire).steps ops).singleMode.sendCommand.inputString ≠ "sleep" := by
    show ("" : String) ≠ "sleep"
    decide
  obtain ⟨k, hk⟩ :=
    (receiveResponse_trace ((s0.setup wire).steps ops).singleMode.sendCommand hne).2
  refine ⟨k, ?_⟩
  have e : ((s0.setup wire).steps ops).takeMeasurement =
      ((s0.setup wire).steps ops).singleMode.sendCommand.receiveResponse.2 := rfl
  rw [e, hk]
  simp [AtlasRGB.sendCommand, AtlasRGB.singleMode, TwoWire.emit, ha, ht]

/-! ## A payload without terminator -/

/-- The decode loop on an unterminated payload: with just the bytes `p` (none zero)
waiting, the loop reads them all, stores them from the cursor on and leaves the
cursor behind the last one. -/
theorem receiveLoop_unterminated (p : List Nat) :
    ∀ (n : Nat) (s : AtlasRGB), (∀ b ∈ p, b ≠ 0 ∧ b < 256) → s.wire.rx = p → p.length ≤ n →
      AtlasRGB.receiveLoop n s =
        { s with
          wire :=
            { s.wire with
              rx := []
              trace := s.wire.trace ++ List.replicate p.length BusEvent.read }
          sensorString := pokeList s.sensorString s.i p
          i := s.i + p.length } := by
  induction p with
  | nil =>
    intro n s _ hrx _
    obtain ⟨inp, buf, code, r, g, bl, addr, t, i, ⟨rx, rep, tr⟩⟩ := s
    simp only at hrx
    subst hrx
    cases n <;> simp [AtlasRGB.receiveLoop, TwoWire.available, pokeList]
  | cons b p ih =>
    intro n s hb hrx hn
    obtain ⟨m, rfl⟩ : ∃ m, n = m + 1 := ⟨n - 1, by simp only [List.length_cons] at hn; omega⟩
    have hb0 := hb b (List.mem_cons_self _ _)
    have hres : ((b : Int) % 256).toNat = b := by omega
    have hp : ∀ c ∈ p, c ≠ 0 ∧ c < 256 := fun c hc => hb c (List.mem_cons_of_mem _ hc)
    have hm : p.length ≤ m := by simp only [List.length_cons] at hn; omega
    rw [AtlasRGB.receiveLoop]
    simp only [TwoWire.available, TwoWire.read, hrx, List.length_cons,
      Nat.add_one_ne_zero, if_false, hres, if_neg hb0.1]
    rw [ih m _ hp rfl hm]
    simp [pokeList, List.replicate_succ, Nat.add_assoc, Nat.add_comm 1]

/-- The decode loop never writes below the cursor it starts from. -/
theorem receiveLoop_below :
    ∀ (n : Nat) (s : AtlasRGB) (j : Nat), j < s.i →
      (AtlasRGB.receiveLoop n s).sensorString j = s.sensorString j := by
  intro n
  induction n with
  | zero => intro s j _; rfl
  | succ n ih =>
    intro s j hj
    cases hrx : s.wire.rx with
    | nil => simp [AtlasRGB.receiveLoop, TwoWire.available, hrx]
    | cons b rest =>
      simp only [AtlasRGB.receiveLoop, TwoWire.available, hrx, List.length_cons,
        Nat.add_one_ne_zero, if_false, TwoWire.read]
      split
      · exact Function.update_noteq (by omega) _ _
      · rw [ih _ j (by show j < s.i + 1; omega)]
        exact Function.update_noteq (by omega) _ _

/-- One receive cycle on an unterminated reply: the command buffer does not hold
"sleep" and the device answers with the status byte `c` and the bytes `p` (none
zero), within the 52 bytes asked for. -/
theorem receiveResponse_unterminated (s : AtlasRGB) (c : Nat) (p : List Nat)
    (more : List (List Nat)) (hcmd : s.inputString ≠ "sleep")
    (hreply : s.wire.replies = (c :: p) :: more)
    (hbytes : ∀ b ∈ p, b ≠ 0 ∧ b < 256) (hlen : p.length ≤ 51) :
    s.receiveResponse =
      (CharPtr.sensorString,
        { s with
          code := (c : Int)
          wire :=
            { rx := []
              replies := more
              trace := s.wire.trace ++
                [BusEvent.delay s.time, BusEvent.requestFrom s.address 52, BusEvent.read] ++
                List.replicate p.length BusEvent.read }
          sensorString := pokeList s.sensorString s.i p
          i := s.i + p.length }) := by
  have htake : (c :: p).take 52 = c :: p := by
    apply List.take_of_length_le
    simp only [List.length_cons]
    omega
  simp only [AtlasRGB.receiveResponse, if_pos hcmd, TwoWire.requestFrom, TwoWire.emit, hreply,
    List.headD_cons, List.tail_cons, htake, TwoWire.read, TwoWire.available]
  rw [receiveLoop_unterminated p _ _ hbytes rfl (le_refl _)]
  simp

/-- The first payload byte of a receive cycle is stored at the cursor the cycle
starts with, and nothing below that cursor is written. -/
theorem receiveResponse_first_byte (s : AtlasRGB) (c b : Nat) (rest : List Nat)
    (more : List (List Nat)) (hcmd : s.inputString ≠ "sleep")
    (hreply : s.wire.replies = (c :: b :: rest) :: more) (hb : b < 256) :
    s.receiveResponse.2.sensorString s.i = b ∧
    ∀ j, j < s.i → s.receiveResponse.2.sensorString j = s.sensorString j := by
  have hres : ((b : Int) % 256).toNat = b := by omega
  simp only [AtlasRGB.receiveResponse, if_pos hcmd, TwoWire.requestFrom, TwoWire.emit, hreply,
    List.headD_cons, List.tail_cons, TwoWire.read, TwoWire.available, List.take_succ_cons,
    List.length_cons, AtlasRGB.receiveLoop, Nat.add_one_ne_zero, if_false, hres]
  constructor
  · split
    · simp
    · rw [receiveLoop_below _ _ _ (by show s.i < s.i + 1; omega)]
      simp
  · intro j hj
    split
    · exact Function.update_noteq (by omega) _ _
    · rw [receiveLoop_below _ _ _ (by show j < s.i + 1; omega)]
      exact Function.update_noteq (by omega) _ _

/-- C17: an unterminated payload leaves the cursor where the payload ended. When
the k ≥ 1 bytes after the status byte hold no zero byte, `receiveResponse` stores
them at the cursor positions c, c+1, ..., c+k-1 (c the cursor at entry) and exits
with the cursor at c+k, not 0; the next receive cycle stores its first payload byte
at index c+k and writes nothing below it, index 0 included. -/
theorem unterminated_payload_cursor (s : AtlasRGB) (c : Nat) (p : List Nat)
    (more : List (List Nat)) (hcmd : s.inputString ≠ "sleep")
    (hreply : s.wire.replies = (c :: p) :: more)
    (hk : 1 ≤ p.length) (hlen : p.length ≤ 51) (hbytes : ∀ b ∈ p, b ≠ 0 ∧ b < 256) :
    (∀ j (hj : j < p.length), s.receiveResponse.2.sensorString (s.i + j) = p.get ⟨j, hj⟩) ∧
    (∀ j, j < s.i → s.receiveResponse.2.sensorString j = s.sensorString j) ∧
    (∀ j, s.i + p.length ≤ j → s.receiveResponse.2.sensorString j = s.sensorString j) ∧
    s.receiveResponse.2.i = s.i + p.length ∧
    s.receiveResponse.2.i ≠ 0 ∧
    (∀ (c2 b2 : Nat) (rest2 : List Nat) (more2 : List (List Nat)),
      more = (c2 :: b2 :: rest2) :: more2 → b2 < 256 →
      s.receiveResponse.2.receiveResponse.2.sensorString (s.i + p.length) = b2 ∧
      ∀ j, j < s.i + p.length →
        s.receiveResponse.2.receiveResponse.2.sensorString j =
          s.receiveResponse.2.sensorString j) := by
  have h := receiveResponse_unterminated s c p more hcmd hreply hbytes hlen
  have hi : s.receiveResponse.2.i = s.i + p.length := by rw [h]
  have hin : s.receiveResponse.2.inputString = s.inputString := by rw [h]
  have hrep : s.receiveResponse.2.wire.replies = more := by rw [h]
  have hbuf : s.receiveResponse.2.sensorString = pokeList s.sensorString s.i p := by rw [h]
  refine ⟨?_, ?_, ?_, hi, by omega, ?_⟩
  · intro j hj
    rw [hbuf]
    exact pokeList_at p _ _ j hj
  · intro j hj
    rw [hbuf]
    exact pokeList_below p _ _ j hj
  · intro j hj
    rw [hbuf]
    exact pokeList_above p _ _ j hj
  · intro c2 b2 rest2 more2 hmore hb2
    have hcmd2 : s.receiveResponse.2.inputString ≠ "sleep" := by rw [hin]; exact hcmd
    have h2 := receiveResponse_first_byte s.receiveResponse.2 c2 b2 rest2 more2 hcmd2
      (by rw [hrep, hmore]) hb2
    rw [hi] at h2
    exact h2

/-- C17 on two answers, status 1 with "AB" and no terminator, then status 1 with
"C" and a zero byte: the first cycle stores 65, 66 at indices 0, 1 and leaves the
cursor at 2; the second stores 67 at index 2 and leaves indices 0 and 1 alone. -/
theorem unterminated_payload_cursor_witness :
    (AtlasRGB.blank.start (TwoWire.scripted [[1, 65, 66], [1, 67, 0]])).receiveResponse.2.i
      = 2 ∧
    (AtlasRGB.blank.start
      (TwoWire.scripted [[1, 65, 66], [1, 67, 0]])).receiveResponse.2.sensorString 0 = 65 ∧
    (AtlasRGB.blank.start
      (TwoWire.scripted [[1, 65, 66], [1, 67, 0]])).receiveResponse.2.sensorString 1 = 66 ∧
    (AtlasRGB.blank.start
      (TwoWire.scripted
        [[1, 65, 66], [1, 67, 0]])).receiveResponse.2.receiveResponse.2.sensorString 2
      = 67 ∧
    (AtlasRGB.blank.start
      (TwoWire.scripted
        [[1, 65, 66], [1, 67, 0]])).receiveResponse.2.receiveResponse.2.sensorString 0
      = 65 := by
  have h := unterminated_payload_cursor
    (AtlasRGB.blank.start (TwoWire.scripted [[1, 65, 66], [1, 67, 0]])) 1 [65, 66]
    [[1, 67, 0]] (by decide) rfl (by decide) (by decide) (by decide)
  have h2 := h.2.2.2.2.2 1 67 [0] [] rfl (by decide)
  refine ⟨h.2.2.2.1, h.1 0 (by decide), h.1 1 (by decide), h2.1, ?_⟩
  rw [h2.2 0 (by decide)]
  exact h.1 0 (by decide)

/-! ## The status byte -/

/-- The decode loop does not look at the response code: a different code before the
loop is the only difference after it. -/
theorem receiveLoop_code :
    ∀ (n : Nat) (s : AtlasRGB) (x : Int),
      AtlasRGB.receiveLoop n { s with code := x } =
        { AtlasRGB.receiveLoop n s with code := x } := by
  intro n
  induction n with
  | zero => intro s x; rfl
  | succ n ih =>
    intro s x
    cases hrx : s.wire.rx with
    | nil => simp [AtlasRGB.receiveLoop, TwoWire.available, hrx]
    | cons b rest =>
      simp only [AtlasRGB.receiveLoop, TwoWire.available, hrx, List.length_cons,
        Nat.add_one_ne_zero, if_false, TwoWire.read]
      split
      · rfl
      · exact ih
          { s with
            wire := { s.wire with rx := rest, trace := s.wire.trace ++ [BusEvent.read] }
            sensorString := Function.update s.sensorString s.i ((b : Int) % 256).toNat
            i := s.i + 1 } x

/-- A receive cycle on an answer with status byte `d` and the bytes `body`, spelled
out: the state after it is the decode loop's result on the (at most 51) bytes of
`body`, with `d` as the response code. -/
theorem receiveResponse_status (s : AtlasRGB) (d : Nat) (body : List Nat)
    (more : List (List Nat)) (hcmd : s.inputString ≠ "sleep") :
    (s.withReplies ((d :: body) :: more)).receiveResponse =
      (CharPtr.sensorString,
        { AtlasRGB.receiveLoop (body.take 51).length
            { s with
              wire :=
                { rx := body.take 51
                  replies := more
                  trace := s.wire.trace ++
                    [BusEvent.delay s.time, BusEvent.requestFrom s.address 52,
                      BusEvent.read] } } with
          code := (d : Int) }) := by
  have hcmd2 : (s.withReplies ((d :: body) :: more)).inputString ≠ "sleep" := hcmd
  rw [← receiveLoop_code]
  simp only [AtlasRGB.receiveResponse, if_pos hcmd2]
  simp [AtlasRGB.withReplies, TwoWire.requestFrom, TwoWire.emit, TwoWire.read,
    TwoWire.available]

/-- C18: every status byte is tolerated. For any status byte c the receive cycle
returns the response buffer and records c as the response code; and two cycles
from the same driver state whose answers differ only in the status byte (c and
c2, the same bytes after it) end with the same response buffer, the same cursor,
the same returned pointer and the same string behind it: the resulting states
differ in the response code alone. -/
theorem status_byte_tolerated (s : AtlasRGB) (c c2 : Nat) (body : List Nat)
    (more : List (List Nat)) (hcmd : s.inputString ≠ "sleep") :
    (s.withReplies ((c :: body) :: more)).receiveResponse.1 = CharPtr.sensorString ∧
    (s.withReplies ((c :: body) :: more)).receiveResponse.2.code = (c : Int) ∧
    (s.withReplies ((c :: body) :: more)).receiveResponse.1 =
      (s.withReplies ((c2 :: body) :: more)).receiveResponse.1 ∧
    (s.withReplies ((c :: body) :: more)).receiveResponse.2.sensorString =
      (s.withReplies ((c2 :: body) :: more)).receiveResponse.2.sensorString ∧
    (s.withReplies ((c :: body) :: more)).receiveResponse.2.i =
      (s.withReplies ((c2 :: body) :: more)).receiveResponse.2.i ∧
    (∀ n,
      (s.withReplies ((c :: body) :: more)).receiveResponse.2.deref n
          (s.withReplies ((c :: body) :: more)).receiveResponse.1 =
        (s.withReplies ((c2 :: body) :: more)).receiveResponse.2.deref n
          (s.withReplies ((c2 :: body) :: more)).receiveResponse.1) ∧
    (s.withReplies ((c :: body) :: more)).receiveResponse.2 =
      { (s.withReplies ((c2 :: body) :: more)).receiveResponse.2 with code := (c : Int) } := by
  rw [receiveResponse_status s c body more hcmd, receiveResponse_status s c2 body more hcmd]
  exact ⟨rfl, rfl, rfl, rfl, rfl, fun _ => rfl, rfl⟩

/-- C18 with the status bytes 7 (not one of the four known codes) and 1 in front of
"A" and a zero byte: the code is 7 in one run and 1 in the other, and both
response buffers read "A". -/
theorem status_byte_tolerated_witness :
    ((AtlasRGB.blank.start TwoWire.silent).withReplies [[7, 65, 0]]).receiveResponse.2.code
      = 7 ∧
    ((AtlasRGB.blank.start TwoWire.silent).withReplies [[1, 65, 0]]).receiveResponse.2.code
      = 1 ∧
    ((AtlasRGB.blank.start TwoWire.silent).withReplies [[7, 65, 0]]).receiveResponse.2.deref 52
        CharPtr.sensorString = [65] ∧
    ((AtlasRGB.blank.start TwoWire.silent).withReplies [[7, 65, 0]]).receiveResponse.2.sensorString
      = ((AtlasRGB.blank.start TwoWire.silent).withReplies
          [[1, 65, 0]]).receiveResponse.2.sensorString ∧
    ((AtlasRGB.blank.start TwoWire.silent).withReplies [[7, 65, 0]]).receiveResponse.2.i
      = ((AtlasRGB.blank.start TwoWire.silent).withReplies [[1, 65, 0]]).receiveResponse.2.i := by
  have h := status_byte_tolerated (AtlasRGB.blank.start TwoWire.silent) 7 1 [65, 0] []
    (by decide)
  have h2 := status_byte_tolerated (AtlasRGB.blank.start TwoWire.silent) 1 7 [65, 0] []
    (by decide)
  exact ⟨h.2.1, h2.2.1, by decide, h.2.2.2.1, h.2.2.2.2.1⟩

/-! ## The cursor invariant -/

/-- A list that holds a zero splits at its first zero. -/
theorem split_first_zero (body : List Nat) (h : 0 ∈ body) :
    ∃ p rest, body = p ++ 0 :: rest ∧ ∀ b ∈ p, b ≠ 0 := by
  induction body with
  | nil => exact absurd h (by simp)
  | cons a body ih =>
    by_cases ha : a = 0
    · exact ⟨[], body, by simp [ha], by simp⟩
    · have hmem : 0 ∈ body := by
        rcases List.mem_cons.mp h with h0 | h0
        · exact absurd h0.symm ha
        · exact h0
      obtain ⟨p, rest, hp, hnz⟩ := ih hmem
      refine ⟨a :: p, rest, by simp [hp], ?_⟩
      intro b hb
      rcases List.mem_cons.mp hb with h1 | h1
      · rw [h1]; exact ha
      · exact hnz b h1

/-- One receive cycle on an answer with a zero byte in it: the status byte `c`, the
bytes `p` (none zero), a zero byte and whatever follows, within the 52 bytes asked
for. The bytes behind the zero byte stay unread. -/
theorem receiveResponse_terminated_rest (s : AtlasRGB) (c : Nat) (p rest : List Nat)
    (more : List (List Nat)) (hcmd : s.inputString ≠ "sleep")
    (hreply : s.wire.replies = (c :: p ++ 0 :: rest) :: more)
    (hbytes : ∀ b ∈ p, b ≠ 0 ∧ b < 256) (hlen : (c :: p ++ 0 :: rest).length ≤ 52) :
    s.receiveResponse =
      (CharPtr.sensorString,
        { s with
          code := (c : Int)
          wire :=
            { rx := rest
              replies := more
              trace := s.wire.trace ++
                [BusEvent.delay s.time, BusEvent.requestFrom s.address 52, BusEvent.read] ++
                List.replicate (p.length + 1) BusEvent.read }
          sensorString := pokeList s.sensorString s.i (p ++ [0])
          i := 0 }) := by
  have htake : (c :: p ++ 0 :: rest).take 52 = c :: (p ++ 0 :: rest) :=
    List.take_of_length_le hlen
  simp only [AtlasRGB.receiveResponse, if_pos hcmd, TwoWire.requestFrom, TwoWire.emit, hreply,
    List.headD_cons, List.tail_cons, htake, TwoWire.read, TwoWire.available]
  rw [receiveLoop_terminated p rest _ _ hbytes rfl (by simp)]
  simp

/-- One receive cycle on a silent device: no byte is delivered, the read gives -1
as the response code, and the response buffer and the cursor stay as they were. -/
theorem receiveResponse_silent (s : AtlasRGB) (hcmd : s.inputString ≠ "sleep")
    (hreply : s.wire.replies.headD [] = []) :
    s.receiveResponse =
      (CharPtr.sensorString,
        { s with
          code := -1
          wire :=
            { rx := []
              replies := s.wire.replies.tail
              trace := s.wire.trace ++
                [BusEvent.delay s.time, BusEvent.requestFrom s.address 52, BusEvent.read] } }) := by
  simp only [AtlasRGB.receiveResponse, if_pos hcmd, TwoWire.requestFrom, TwoWire.emit, hreply,
    List.take_nil, TwoWire.read, TwoWire.available, List.length_nil, AtlasRGB.receiveLoop,
    List.append_assoc, List.singleton_append, List.cons_append, List.nil_append]

/-- A receive cycle keeps the cursor at rest and the coming answers terminated, and
changes no byte of the response buffer above index 50. -/
theorem receiveResponse_cursorAtRest (s : AtlasRGB) (h : s.cursorAtRest) :
    s.receiveResponse.2.cursorAtRest ∧
    ∀ j, 50 < j → s.receiveResponse.2.sensorString j = s.sensorString j := by
  by_cases hcmd : s.inputString ≠ "sleep"
  · cases hrep : s.wire.replies with
    | nil =>
      rw [receiveResponse_silent s hcmd (by rw [hrep]; rfl)]
      refine ⟨⟨h.1, ?_⟩, fun _ _ => rfl⟩
      intro r hr
      simp only [hrep, List.tail_nil, List.not_mem_nil] at hr
    | cons r more =>
      have hr := h.2 r (by rw [hrep]; exact List.mem_cons_self _ _)
      have hmore : ∀ r2 ∈ more, terminatedReply r2 :=
        fun r2 h2 => h.2 r2 (by rw [hrep]; exact List.mem_cons_of_mem _ h2)
      obtain ⟨hlen, hbyte, hzero⟩ := hr
      cases r with
      | nil => exact absurd hzero (by simp)
      | cons c body =>
        obtain ⟨p, rest, hbody, hnz⟩ := split_first_zero body (by simpa using hzero)
        subst hbody
        have hbytes : ∀ b ∈ p, b ≠ 0 ∧ b < 256 :=
          fun b hb => ⟨hnz b hb, hbyte b (by simp [hb])⟩
        rw [receiveResponse_terminated_rest s c p rest more hcmd hrep hbytes hlen]
        refine ⟨⟨rfl, hmore⟩, ?_⟩
        intro j hj
        show pokeList s.sensorString s.i (p ++ [0]) j = s.sensorString j
        rw [h.1]
        apply pokeList_above
        simp only [List.length_cons, List.length_append, List.length_nil] at hlen ⊢
        omega
  · have e : s.receiveResponse.2 = s := by simp [AtlasRGB.receiveResponse, hcmd]
    rw [e]
    exact ⟨h, fun _ _ => rfl⟩

/-- Every call keeps the cursor at rest and the coming answers terminated, and
changes no byte of the response buffer above index 50. -/
theorem step_cursorAtRest (s : AtlasRGB) (op : Op) (h : s.cursorAtRest) :
    (s.step op).cursorAtRest ∧
    ∀ j, 50 < j → (s.step op).sensorString j = s.sensorString j := by
  cases op with
  | setLEDBrightness v p =>
    show (s.setLEDBrightness v p).2.cursorAtRest ∧
      ∀ j, 50 < j → (s.setLEDBrightness v p).2.sensorString j = s.sensorString j
    unfold AtlasRGB.setLEDBrightness
    split_ifs <;> exact ⟨h, fun _ _ => rfl⟩
  | setIndicatorLED st pw =>
    show (s.setIndicatorLED st pw).cursorAtRest ∧
      ∀ j, 50 < j → (s.setIndicatorLED st pw).sensorString j = s.sensorString j
    unfold AtlasRGB.setIndicatorLED
    split_ifs <;> exact ⟨h, fun _ _ => rfl⟩
  | setBaudRate v =>
    show (s.setBaudRate v).2.cursorAtRest ∧
      ∀ j, 50 < j → (s.setBaudRate v).2.sensorString j = s.sensorString j
    unfold AtlasRGB.setBaudRate
    split_ifs <;> exact ⟨h, fun _ _ => rfl⟩
  | gammaCorrection f =>
    show (s.gammaCorrection f).2.cursorAtRest ∧
      ∀ j, 50 < j → (s.gammaCorrection f).2.sensorString j = s.sensorString j
    unfold AtlasRGB.gammaCorrection
    split_ifs <;> exact ⟨h, fun _ _ => rfl⟩
  | nameDevice v =>
    show (s.nameDevice v).cursorAtRest ∧
      ∀ j, 50 < j → (s.nameDevice v).sensorString j = s.sensorString j
    unfold AtlasRGB.nameDevice
    split_ifs <;> exact ⟨h, fun _ _ => rfl⟩
  | deviceInformation => exact ⟨h, fun _ _ => rfl⟩
  | sleepSensor => exact ⟨h, fun _ _ => rfl⟩
  | factoryReset => exact ⟨h, fun _ _ => rfl⟩
  | singleMode => exact ⟨h, fun _ _ => rfl⟩
  | calibrateSensor => exact ⟨h, fun _ _ => rfl⟩
  | findSensor => exact ⟨h, fun _ _ => rfl⟩
  | getStatus => exact ⟨h, fun _ _ => rfl⟩
  | sendCommand => exact ⟨h, fun _ _ => rfl⟩
  | receiveResponse => exact receiveResponse_cursorAtRest s h
  | run =>
    show s.run.2.cursorAtRest ∧ ∀ j, 50 < j → s.run.2.sensorString j = s.sensorString j
    unfold AtlasRGB.run
    split_ifs
    · exact receiveResponse_cursorAtRest s.sendCommand h
    · exact receiveResponse_cursorAtRest s h
  | takeMeasurement => exact receiveResponse_cursorAtRest s.singleMode.sendCommand h

/-- Every sequence of calls keeps the cursor at rest and the coming answers
terminated, and changes no byte of the response buffer above index 50. -/
theorem steps_cursorAtRest (ops : List Op) :
    ∀ s : AtlasRGB, s.cursorAtRest →
      (s.steps ops).cursorAtRest ∧
      ∀ j, 50 < j → (s.steps ops).sensorString j = s.sensorString j := by
  induction ops with
  | nil => intro s h; exact ⟨h, fun _ _ => rfl⟩
  | cons op ops ih =>
    intro s h
    have h1 := step_cursorAtRest s op h
    have h2 := ih (s.step op) h1.1
    exact ⟨h2.1, fun j hj => (h2.2 j hj).trans (h1.2 j hj)⟩

/-- C19: the cursor invariant and the write bound of the decode loop. Start with
the cursor at 0 and a device whose every answer fits the 52 bytes asked for and
has a zero byte among the bytes after the status byte. Then after any sequence of
builder, `sendCommand`, `receiveResponse`, `run` and `takeMeasurement` calls the
cursor is 0, it is 0 again after any next call (so at the entry and at the exit
of every receive cycle), and neither that call nor the whole sequence has changed
a byte of the response buffer above index 50: every index written is at most
50. -/
theorem cursor_invariant (s : AtlasRGB) (ops : List Op) (op : Op) (hi : s.i = 0)
    (hgood : ∀ r ∈ s.wire.replies, terminatedReply r) :
    (s.steps ops).i = 0 ∧
    ((s.steps ops).step op).i = 0 ∧
    (s.steps ops).sendCommand.i = 0 ∧
    (∀ j, 50 < j → ((s.steps ops).step op).sensorString j = (s.steps ops).sensorString j) ∧
    (∀ j, 50 < j → (s.steps ops).sensorString j = s.sensorString j) := by
  have h := steps_cursorAtRest ops s ⟨hi, hgood⟩
  have h2 := step_cursorAtRest (s.steps ops) op h.1
  exact ⟨h.1.1, h2.1.1, h.1.1, h2.2, h.2⟩

/-- C19 on a device with the answers (1, "A", 0) and (1, "BC", 0): after
`singleMode`, `run`, `takeMeasurement` the cursor is 0, and it is 0 after one more
`receiveResponse` on the then silent device. -/
theorem cursor_invariant_witness :
    ((AtlasRGB.blank.start (TwoWire.scripted [[1, 65, 0], [1, 66, 67, 0]])).steps
      [Op.singleMode, Op.run, Op.takeMeasurement]).i = 0 ∧
    (((AtlasRGB.blank.start (TwoWire.scripted [[1, 65, 0], [1, 66, 67, 0]])).steps
      [Op.singleMode, Op.run, Op.takeMeasurement]).step Op.receiveResponse).i = 0 ∧
    ((AtlasRGB.blank.start (TwoWire.scripted [[1, 65, 0], [1, 66, 67, 0]])).steps
      [Op.singleMode, Op.run, Op.takeMeasurement]).sensorString 51 = 0 ∧
    ((AtlasRGB.blank.start (TwoWire.scripted [[1, 65, 0], [1, 66, 67, 0]])).steps
      [Op.singleMode, Op.run, Op.takeMeasurement]).deref 52 CharPtr.sensorString
      = [66, 67] := by
  have h := cursor_invariant
    (AtlasRGB.blank.start (TwoWire.scripted [[1, 65, 0], [1, 66, 67, 0]]))
    [Op.singleMode, Op.run, Op.takeMeasurement] Op.receiveResponse rfl (by decide)
  refine ⟨h.1, h.2.1, ?_, by decide⟩
  rw [h.2.2.2.2 51 (by decide)]
  rfl

/-! ## A silent device -/

/-- C20: a stale response on an empty reply. When the device delivers no byte for
the request, `receiveResponse` (with a command buffer other than "sleep") writes
nothing into the response buffer and leaves the cursor as it was, so the buffer it
returns reads byte for byte as before the cycle, i.e. as the previous cycle left
it; only the response code changes, to the -1 of the failed read. The same holds
for `run()`, whatever the command buffer holds. -/
theorem stale_response_on_empty_reply (s : AtlasRGB)
    (hreply : s.wire.replies.headD [] = []) :
    (s.inputString ≠ "sleep" →
      s.receiveResponse.1 = CharPtr.sensorString ∧
      s.receiveResponse.2.sensorString = s.sensorString ∧
      s.receiveResponse.2.i = s.i ∧
      s.receiveResponse.2.code = -1 ∧
      s.receiveResponse.2.inputString = s.inputString ∧
      ∀ n, s.receiveResponse.2.deref n s.receiveResponse.1 = s.deref n CharPtr.sensorString) ∧
    s.run.1 = CharPtr.sensorString ∧
    s.run.2.sensorString = s.sensorString ∧
    s.run.2.i = s.i ∧
    s.run.2.code = -1 ∧
    ∀ n, s.run.2.deref n s.run.1 = s.deref n CharPtr.sensorString := by
  have hne : ("" : String) ≠ "sleep" := by decide
  constructor
  · intro hcmd
    rw [receiveResponse_silent s hcmd hreply]
    exact ⟨rfl, rfl, rfl, rfl, rfl, fun _ => rfl⟩
  · by_cases h : s.inputString ≠ ""
    · have e : s.run = (CharPtr.sensorString, s.sendCommand.receiveResponse.2) := by
        simp only [AtlasRGB.run, if_pos h]
      rw [e, receiveResponse_silent s.sendCommand hne hreply]
      exact ⟨rfl, rfl, rfl, rfl, fun _ => rfl⟩
    · have e : s.run = (CharPtr.sensorString, s.receiveResponse.2) := by
        simp only [AtlasRGB.run, if_neg h]
      have hcmd : s.inputString ≠ "sleep" := by
        have h2 : s.inputString = "" := not_not.mp h
        rw [h2]
        exact hne
      rw [e, receiveResponse_silent s hcmd hreply]
      exact ⟨rfl, rfl, rfl, rfl, fun _ => rfl⟩

/-- C20 on a device that answers once (1, "A", 0) and then falls silent: the second
cycle, `receiveResponse` or `run`, returns "A" again, with response code -1. -/
theorem stale_response_on_empty_reply_witness :
    (AtlasRGB.blank.start (TwoWire.scripted [[1, 65, 0]])).receiveResponse.2.code = 1 ∧
    (AtlasRGB.blank.start (TwoWire.scripted [[1, 65, 0]])).receiveResponse.2.deref 52
      CharPtr.sensorString = [65] ∧
    (AtlasRGB.blank.start
      (TwoWire.scripted [[1, 65, 0]])).receiveResponse.2.receiveResponse.2.code = -1 ∧
    (AtlasRGB.blank.start
      (TwoWire.scripted [[1, 65, 0]])).receiveResponse.2.receiveResponse.2.deref 52
      CharPtr.sensorString = [65] ∧
    (AtlasRGB.blank.start (TwoWire.scripted [[1, 65, 0]])).receiveResponse.2.run.2.code = -1 ∧
    (AtlasRGB.blank.start (TwoWire.scripted [[1, 65, 0]])).receiveResponse.2.run.2.deref 52
      CharPtr.sensorString = [65] := by
  have h := stale_response_on_empty_reply
    (AtlasRGB.blank.start (TwoWire.scripted [[1, 65, 0]])).receiveResponse.2 (by decide)
  have h1 := h.1 (by decide)
  refine ⟨by decide, by decide, h1.2.2.2.1, ?_, h.2.2.2.2.1, ?_⟩
  · have h3 := h1.2.2.2.2.2 52
    rw [h1.1] at h3
    rw [h3]
    decide
  · have h3 := h.2.2.2.2.2 52
    rw [h.2.1] at h3
    rw [h3]
    decide

end WaterTeam
